import Mathlib

/-!
# Verification of the flyctl V1→V2 platform migration orchestrator

Shallow embedding of `internal/command/migrate_to_v2/migrate_to_v2.go` and of
`internal/machine` / `WaitForStartOrStop`, translated clause by clause from the
Go source.  Remote control-plane and resource-API calls are modelled by an
`Env` oracle that fixes the outcome of every call, and every function under
scrutiny additionally returns the list of remote calls it issued (its trace),
so that claims about "which calls were made and in which order" are statements
about that list.
-/

deriving instance DecidableEq for Except

namespace MigrateToV2

/-- `api.Machine`, reduced to the identifier used by destroy calls. -/
structure Machine where
  id : Nat
deriving Repr, DecidableEq

/-- `api.AllocationStatus`: one running nomad alloc (a legacy instance). -/
structure Alloc where
  idShort : String
  taskName : String
  region : String
  attachedVolumes : List String
deriving Repr, DecidableEq

/-- `api.LaunchMachineInput`, reduced to the fields the migration code reads
(the region appears in the creation error message; the process group is the
alloc task name written into the machine metadata). -/
structure LaunchInput where
  region : String
  processGroup : String
deriving Repr, DecidableEq

/-- One remote call (or local durable-effect) issued by the code.  Read-only
calls and mutating calls are distinguished by `Ev.isMutating`. -/
inductive Ev where
  | getAppCompact
  | getApp
  | autoscalingConfig
  | getImageInfo
  | appVMResources
  | getAllocations
  | listActive
  | lockApp
  | setVMCount (groups : List (String × Nat))
  | setPlatform (v : String)
  | createRelease
  | launch (i : Nat)
  | acquireLeases
  | releaseLeases
  | unlockApp
  | newMachineDeployment
  | deployMachinesApp
  | writeConfig
  | destroy (machineId : Nat)
  | resumeApp
deriving Repr, DecidableEq

/-- Whether an event is a remote *mutating* call.  `getAllocations`,
`listActive` and the other `get*` calls are reads; `newMachineDeployment`
only constructs the deployment object; `writeConfig` writes a local file. -/
def Ev.isMutating : Ev → Bool
  | .getAppCompact | .getApp | .autoscalingConfig | .getImageInfo
  | .appVMResources | .getAllocations | .listActive
  | .newMachineDeployment | .writeConfig => false
  | _ => true

/-- `recoveryState` from the source: the ledger consulted by `rollback`. -/
structure RecoveryState where
  machinesCreated : List Machine
  appLocked : Bool
  scaledToZero : Bool
  platformVersion : String
  onlyPromptToConfigSave : Bool
deriving Repr, DecidableEq

/-- The zero value a fresh `recoveryState` has in Go before the constructor
stores the app's platform version into it. -/
def RecoveryState.init (platformVersion : String) : RecoveryState :=
  { machinesCreated := []
    appLocked := false
    scaledToZero := false
    platformVersion := platformVersion
    onlyPromptToConfigSave := false }

/-- `v2PlatformMigrator`, reduced to the fields the migration logic reads.
`processConfigs` keeps only the keys of the process-config map (the values
are opaque to the orchestration logic except for being dereferenced). -/
structure Migrator where
  appName : String
  appPlatformVersion : String
  autoscaleEnabled : Bool
  /-- outcome of the external `appConfig.ValidateForMachinesPlatform` call -/
  configValidationError : Option String
  /-- `appConfig.Mounts != nil` carries the mounts section -/
  mounts : Option String
  processConfigs : List String
  oldAllocs : List Alloc
  oldVmCounts : List (String × Nat)
  newMachinesInput : List LaunchInput
  newMachines : List Machine
  canAvoidDowntime : Bool
  appLock : String
  releaseId : String
  releaseVersion : Nat
  recovery : RecoveryState
deriving Repr, DecidableEq

/-! ## Validation (`validate`, `validateScaling`, `validateVolumes`,
`validateProcessGroupsOnAllocs`) -/

/-- `validateScaling`: errors iff the autoscaling config is enabled. -/
def validateScaling (m : Migrator) : Option String :=
  if m.autoscaleEnabled then
    some ("cannot migrate app " ++ m.appName ++ " with autoscaling config, yet")
  else
    none

/-- `validateVolumes`: errors if the config has a `[mounts]` section, else on
the first alloc with an attached volume. -/
def validateVolumes (m : Migrator) : Option String :=
  match m.mounts with
  | some _ => some ("cannot migrate app " ++ m.appName ++ " with [mounts] configuration, yet")
  | none =>
    match m.oldAllocs.find? (fun a => !a.attachedVolumes.isEmpty) with
    | some a => some ("cannot migrate app " ++ m.appName ++ " because alloc " ++ a.idShort ++ " has a volume attached")
    | none => none

/-- `validateProcessGroupsOnAllocs`: errors on the first alloc whose task name
has no entry in the app's process configs. -/
def validateProcessGroupsOnAllocs (m : Migrator) : Option String :=
  match m.oldAllocs.find? (fun a => !(m.processConfigs.contains a.taskName)) with
  | some a => some ("alloc " ++ a.idShort ++ " has process group " ++ a.taskName ++ " that is not present in app configuration fly.toml")
  | none => none

/-- `validate`, with the source's control flow kept verbatim: after
`err = m.validateScaling(ctx)` the source reads `if err != nil { return nil }`,
so a scaling error makes `validate` return success and skips the volume and
process-group checks. -/
def validate (m : Migrator) : Option String :=
  match m.configValidationError with
  | some e => some ("failed to validate config for Apps V2 platform: " ++ e)
  | none =>
    match validateScaling m with
    | some _ => none
    | none =>
      match validateVolumes m with
      | some e => some e
      | none => validateProcessGroupsOnAllocs m

/-! ## Remote-call oracle -/

/-- Outcome oracle for every remote call the migration issues.  Indexed calls
(`launch`, the `GetAllocations` polls inside `waitForAllocsZero`, `destroy`)
take the call index or machine id. -/
structure Env where
  lockApp : Except String String
  setVMCountZero : Except String Unit
  setVMCountRestore : Except String Unit
  /-- result of the i-th `GetAllocations` poll inside `waitForAllocsZero`:
  an error or the number of allocs still alive -/
  allocPolls : Nat → Except String Nat
  /-- number of poll iterations the 1-hour timeout allows -/
  waitFuel : Nat
  setPlatform : String → Except String Unit
  createRelease : Except String (String × Nat)
  launch : Nat → Except String Machine
  acquireLeases : Except String Unit
  unlock : Except String Unit
  newMachineDeployment : Except String Unit
  writeConfig : Except String Unit
  destroy : Nat → Except String Unit
  resume : Except String Unit

/-- A step returns the remote calls it made, the updated migrator and the
`error` result of the Go function. -/
abbrev StepRes := List Ev × Migrator × Option String

/-! ## Orchestrator steps -/

/-- `lockAppForMigration`: on success stores the lock id and sets
`recovery.appLocked` before returning. -/
def lockAppForMigration (env : Env) (m : Migrator) : StepRes :=
  match env.lockApp with
  | .error e => ([.lockApp], m, some e)
  | .ok lockId =>
    ([.lockApp], { m with appLock := lockId
                          recovery := { m.recovery with appLocked := true } }, none)

/-- The polling loop of `waitForAllocsZero`: each iteration issues one
`GetAllocations`; an error from it is returned at once, zero live allocs means
success, otherwise the loop retries until the 1-hour timeout (`fuel`) fires. -/
def waitForAllocsZeroGo (env : Env) (i : Nat) : Nat → List Ev × Option String
  | 0 => ([], some "nomad allocs never reached zero, timed out")
  | fuel + 1 =>
    match env.allocPolls i with
    | .error e => ([.getAllocations], some e)
    | .ok n =>
      if n == 0 then
        ([.getAllocations], none)
      else
        let r := waitForAllocsZeroGo env (i + 1) fuel
        (.getAllocations :: r.1, r.2)

/-- `waitForAllocsZero`. -/
def waitForAllocsZero (env : Env) : List Ev × Option String :=
  waitForAllocsZeroGo env 0 env.waitFuel

/-- `scaleNomadToZero`: sets every group count to 0 (the `SetNomadVMCount`
call is skipped when there are no groups), waits for the allocs to drain, and
only then records `recovery.scaledToZero = true`. -/
def scaleNomadToZero (env : Env) (m : Migrator) : StepRes :=
  let groupCounts := m.oldVmCounts.map (fun g => (g.1, 0))
  let step1 : List Ev × Option String :=
    if groupCounts.length > 0 then
      match env.setVMCountZero with
      | .error e => ([.setVMCount groupCounts], some e)
      | .ok _ => ([.setVMCount groupCounts], none)
    else ([], none)
  match step1 with
  | (t1, some e) => (t1, m, some e)
  | (t1, none) =>
    match waitForAllocsZero env with
    | (t2, some e) => (t1 ++ t2, m, some e)
    | (t2, none) =>
      (t1 ++ t2, { m with recovery := { m.recovery with scaledToZero := true } }, none)

/-- `updateAppPlatformVersion`: on success records the new platform version in
the recovery state before returning. -/
def updateAppPlatformVersion (env : Env) (m : Migrator) (platform : String) : StepRes :=
  match env.setPlatform platform with
  | .error e => ([.setPlatform platform], m, some e)
  | .ok _ =>
    ([.setPlatform platform],
     { m with recovery := { m.recovery with platformVersion := platform } }, none)

/-- `createRelease`: on success stores the release id and version. -/
def createRelease (env : Env) (m : Migrator) : StepRes :=
  match env.createRelease with
  | .error e => ([.createRelease], m, some e)
  | .ok r =>
    ([.createRelease], { m with releaseId := r.1, releaseVersion := r.2 }, none)

/-- The creation loop of `createMachines`: each iteration calls `Launch` and
then the debug `ListActive`; the first launch failure stops the loop, keeping
the machines created so far.  Returns (trace, machines created, error). -/
def createMachinesGo (env : Env) : List LaunchInput → Nat → List Machine →
    List Ev × List Machine × Option String
  | [], _, acc => ([], acc, none)
  | inp :: rest, i, acc =>
    match env.launch i with
    | .error e =>
      ([.launch i, .listActive], acc,
       some ("failed creating a machine in region " ++ inp.region ++ ": " ++ e))
    | .ok mach =>
      let r := createMachinesGo env rest (i + 1) (acc ++ [mach])
      (.launch i :: .listActive :: r.1, r.2)

/-- `createMachines`: the deferred `m.recovery.machinesCreated =
newlyCreatedMachines` runs on success and on failure alike, so the recovery
ledger always holds exactly the machines whose creation call succeeded. -/
def createMachines (env : Env) (m : Migrator) : StepRes :=
  match createMachinesGo env m.newMachinesInput 0 [] with
  | (t, created, some e) =>
    (t, { m with recovery := { m.recovery with machinesCreated := created } }, some e)
  | (t, created, none) =>
    (t, { m with newMachines := created
                 recovery := { m.recovery with machinesCreated := created } }, none)

/-- `unlockApp`: on success clears `recovery.appLocked`. -/
def unlockApp (env : Env) (m : Migrator) : StepRes :=
  match env.unlock with
  | .error e => ([.unlockApp], m, some e)
  | .ok _ =>
    ([.unlockApp], { m with recovery := { m.recovery with appLocked := false } }, none)

/-- `deployApp`: an error constructing the deployment is returned; an error
from `DeployMachinesApp` itself is only reported to sentry and `deployApp`
returns `nil` regardless. -/
def deployApp (env : Env) (m : Migrator) : StepRes :=
  match env.newMachineDeployment with
  | .error e => ([.newMachineDeployment], m, some e)
  | .ok _ => ([.newMachineDeployment, .deployMachinesApp], m, none)

/-! ## Rollback -/

/-- The destroy loop of `rollback`: machines are destroyed in ledger order and
the first destroy error is returned at once, without attempting the rest. -/
def destroyLoop (env : Env) : List Machine → List Ev × Option String
  | [] => ([], none)
  | mach :: rest =>
    match env.destroy mach.id with
    | .error e => ([.destroy mach.id], some e)
    | .ok _ =>
      let r := destroyLoop env rest
      (.destroy mach.id :: r.1, r.2)

/-- The deferred tail of `rollback`: unlock the app when the ledger says the
lock is held (an unlock failure is only printed), then unconditionally resume
the app (failures other than "not suspended" are only printed). -/
def rollbackDefer (env : Env) (m : Migrator) : List Ev × Migrator :=
  let step1 : List Ev × Migrator :=
    if m.recovery.appLocked then
      match unlockApp env m with
      | (t, m1, _) => (t, m1)
    else ([], m)
  (step1.1 ++ [.resumeApp], step1.2)

/-- The part of the `rollback` body after the destroy loop: reset the platform
version to "nomad" if it was ever moved off it, and restore the old per-group
alloc counts if the fleet was scaled to zero. -/
def rollbackPostDestroy (env : Env) (m : Migrator) : StepRes :=
  let step2 : StepRes :=
    if m.recovery.platformVersion ≠ "nomad" then
      updateAppPlatformVersion env m "nomad"
    else ([], m, none)
  match step2 with
  | (t2, m2, some e) => (t2, m2, some e)
  | (t2, m2, none) =>
    if m2.recovery.scaledToZero ∧ m2.oldAllocs.length > 0 then
      match env.setVMCountRestore with
      | .error e => (t2 ++ [.setVMCount m2.oldVmCounts], m2, some e)
      | .ok _ => (t2 ++ [.setVMCount m2.oldVmCounts], m2, none)
    else (t2, m2, none)

/-- The body of `rollback` (before its deferred tail): destroy the recorded
machines (stopping at the first destroy error), then the platform-version and
alloc-count restoration steps. -/
def rollbackBody (env : Env) (m : Migrator) : StepRes :=
  let step1 : List Ev × Option String :=
    if m.recovery.machinesCreated.length > 0 then
      destroyLoop env m.recovery.machinesCreated
    else ([], none)
  match step1 with
  | (t1, some e) => (t1, m, some e)
  | (t1, none) =>
    match rollbackPostDestroy env m with
    | (t2, m2, err) => (t1 ++ t2, m2, err)

/-- `rollback`: body then deferred unlock-and-resume; the body's error is the
function's result, the deferred calls run on every exit path. -/
def rollback (env : Env) (m : Migrator) : StepRes :=
  match rollbackBody env m with
  | (tb, mb, errb) =>
    match rollbackDefer env mb with
    | (td, md) => (tb ++ td, md, errb)

/-! ## `Migrate` -/

/-- The error `Migrate` ends with: the sentinel `abortedErr` or a step error. -/
inductive MigErr where
  | aborted
  | failed (msg : String)
deriving Repr, DecidableEq

/-- Result of the forward phase of `Migrate` (everything before the deferred
handlers run): trace, final migrator state, error, and whether the
`ReleaseLeases` defer got registered (it is registered right after the
`AcquireLeases` call returns, before its error is even checked). -/
structure FwdOut where
  trace : List Ev
  m : Migrator
  err : Option MigErr
  leasesDefer : Bool
deriving Repr, DecidableEq

/-- The abort flag: set by the signal-handler goroutine, polled by `Migrate`
at checkpoints between steps.  Time is measured in remote calls issued so far;
`some t` means the flag is up once at least `t` calls have been made. -/
def isAborted (ab : Option Nat) (callsSoFar : Nat) : Bool :=
  match ab with
  | some t => t ≤ callsSoFar
  | none => false

/-- Final stretch of `Migrate`: set the platform version to "machines", then
flip `recovery.onlyPromptToConfigSave` and write the config to disk. -/
def mfFinish (env : Env) (tr : List Ev) (m : Migrator) : FwdOut :=
  match updateAppPlatformVersion env m "machines" with
  | (t, m1, some e) => ⟨tr ++ t, m1, some (.failed e), true⟩
  | (t, m1, none) =>
    let m2 := { m1 with recovery := { m1.recovery with onlyPromptToConfigSave := true } }
    match env.writeConfig with
    | .error e => ⟨(tr ++ t) ++ [.writeConfig], m2, some (.failed e), true⟩
    | .ok _ => ⟨(tr ++ t) ++ [.writeConfig], m2, none, true⟩

/-- Late scale-down branch (`if m.canAvoidDowntime`), with its checkpoint. -/
def mfLateScale (env : Env) (ab : Option Nat) (tr : List Ev) (m : Migrator) : FwdOut :=
  if m.canAvoidDowntime then
    match scaleNomadToZero env m with
    | (t, m1, some e) => ⟨tr ++ t, m1, some (.failed e), true⟩
    | (t, m1, none) =>
      if isAborted ab (tr ++ t).length then ⟨tr ++ t, m1, some .aborted, true⟩
      else mfFinish env (tr ++ t) m1
  else mfFinish env tr m

/-- The explicit `m.newMachines.ReleaseLeases(ctx)` (result discarded) and the
cutover `deployApp`, with its checkpoint. -/
def mfDeploy (env : Env) (ab : Option Nat) (tr : List Ev) (m : Migrator) : FwdOut :=
  let tr1 := tr ++ [.releaseLeases]
  match deployApp env m with
  | (t, m1, some e) => ⟨tr1 ++ t, m1, some (.failed e), true⟩
  | (t, m1, none) =>
    if isAborted ab (tr1 ++ t).length then ⟨tr1 ++ t, m1, some .aborted, true⟩
    else mfLateScale env ab (tr1 ++ t) m1

/-- `unlockApp` step with its checkpoint (`StartBackgroundLeaseRefresh` is a
local goroutine start, no remote call of its own). -/
def mfUnlock (env : Env) (ab : Option Nat) (tr : List Ev) (m : Migrator) : FwdOut :=
  match unlockApp env m with
  | (t, m1, some e) => ⟨tr ++ t, m1, some (.failed e), true⟩
  | (t, m1, none) =>
    if isAborted ab (tr ++ t).length then ⟨tr ++ t, m1, some .aborted, true⟩
    else mfDeploy env ab (tr ++ t) m1

/-- `AcquireLeases` step: the `ReleaseLeases` defer is registered before the
acquire error is checked, so every later exit path carries it. -/
def mfLeases (env : Env) (ab : Option Nat) (tr : List Ev) (m : Migrator) : FwdOut :=
  let t := tr ++ [.acquireLeases]
  match env.acquireLeases with
  | .error e => ⟨t, m, some (.failed e), true⟩
  | .ok _ =>
    if isAborted ab t.length then ⟨t, m, some .aborted, true⟩
    else mfUnlock env ab t m

/-- `createMachines` step with its checkpoint. -/
def mfCreate (env : Env) (ab : Option Nat) (tr : List Ev) (m : Migrator) : FwdOut :=
  match createMachines env m with
  | (t, m1, some e) => ⟨tr ++ t, m1, some (.failed e), false⟩
  | (t, m1, none) =>
    if isAborted ab (tr ++ t).length then ⟨tr ++ t, m1, some .aborted, false⟩
    else mfLeases env ab (tr ++ t) m1

/-- `createRelease` step with its checkpoint. -/
def mfRelease (env : Env) (ab : Option Nat) (tr : List Ev) (m : Migrator) : FwdOut :=
  match createRelease env m with
  | (t, m1, some e) => ⟨tr ++ t, m1, some (.failed e), false⟩
  | (t, m1, none) =>
    if isAborted ab (tr ++ t).length then ⟨tr ++ t, m1, some .aborted, false⟩
    else mfCreate env ab (tr ++ t) m1

/-- `updateAppPlatformVersion "detached"` step with its checkpoint. -/
def mfDetach (env : Env) (ab : Option Nat) (tr : List Ev) (m : Migrator) : FwdOut :=
  match updateAppPlatformVersion env m "detached" with
  | (t, m1, some e) => ⟨tr ++ t, m1, some (.failed e), false⟩
  | (t, m1, none) =>
    if isAborted ab (tr ++ t).length then ⟨tr ++ t, m1, some .aborted, false⟩
    else mfRelease env ab (tr ++ t) m1

/-- Early scale-down branch (`if !m.canAvoidDowntime`); the checkpoint after
it runs whether or not the branch was taken. -/
def mfEarlyScale (env : Env) (ab : Option Nat) (tr : List Ev) (m : Migrator) : FwdOut :=
  if !m.canAvoidDowntime then
    match scaleNomadToZero env m with
    | (t, m1, some e) => ⟨tr ++ t, m1, some (.failed e), false⟩
    | (t, m1, none) =>
      if isAborted ab (tr ++ t).length then ⟨tr ++ t, m1, some .aborted, false⟩
      else mfDetach env ab (tr ++ t) m1
  else
    if isAborted ab tr.length then ⟨tr, m, some .aborted, false⟩
    else mfDetach env ab tr m

/-- First step of the forward phase: `lockAppForMigration` with its
checkpoint. -/
def mfStart (env : Env) (ab : Option Nat) (m : Migrator) : FwdOut :=
  match lockAppForMigration env m with
  | (t, m1, some e) => ⟨t, m1, some (.failed e), false⟩
  | (t, m1, none) =>
    if isAborted ab t.length then ⟨t, m1, some .aborted, false⟩
    else mfEarlyScale env ab t m1

/-- Forward phase of `Migrate`: reset `recovery.platformVersion` to the app's
current platform version, then run the steps in source order with an abort
checkpoint after each one. -/
def migrateForward (env : Env) (ab : Option Nat) (m0 : Migrator) : FwdOut :=
  mfStart env ab
    { m0 with recovery := { m0.recovery with platformVersion := m0.appPlatformVersion } }

/-- Result of `Migrate` including what its deferred handlers did. -/
structure MigOut where
  trace : List Ev
  m : Migrator
  err : Option MigErr
  rolledBack : Bool
  manualFollowUp : Bool
deriving Repr, DecidableEq

/-- `Migrate`: forward phase, then the deferred handlers in LIFO order — the
`ReleaseLeases` defer (when registered), then the error handler, which on a
`recovery.onlyPromptToConfigSave` failure only prints the "please run fly
config save" follow-up, and otherwise invokes `rollback` (a rollback error is
printed; the original error is returned either way). -/
def Migrate (env : Env) (ab : Option Nat) (m0 : Migrator) : MigOut :=
  match migrateForward env ab m0 with
  | f =>
    let t1 := f.trace ++ (if f.leasesDefer then [Ev.releaseLeases] else [])
    match f.err with
    | none => ⟨t1, f.m, none, false, false⟩
    | some e =>
      if f.m.recovery.onlyPromptToConfigSave then ⟨t1, f.m, some e, false, true⟩
      else
        match rollback env f.m with
        | (tr, mr, _) => ⟨t1 ++ tr, mr, some e, true, false⟩

/-! ## Plan construction (`NewV2PlatformMigrator`) -/

/-- A Go failure: a returned `error` value, or a runtime nil-dereference
panic. -/
inductive GoError where
  | err (msg : String)
  | nilPanic (msg : String)
deriving Repr, DecidableEq

/-- The resolved results of the constructor's remote reads and local lookups
(config file, prompt answers); the reads themselves are recorded as events. -/
structure ConstructInput where
  appName : String
  platformVersion : String
  configValidationError : Option String
  mounts : Option String
  processConfigs : List String
  autoscaleEnabled : Bool
  allocs : List Alloc
  /-- outcome of `determineVmSpecs` (`guest.SetSize` failure) -/
  vmSpecsError : Option String
  /-- `determinePrimaryRegion`: resolved region, `none` if the prompt yields
  no region -/
  primaryRegion : Option String
  /-- outcome of `determineConfigPath` -/
  configPathError : Option String
deriving Repr, DecidableEq

/-- `resolveMachineFromAlloc`.  In the source, `m.processConfigs[alloc.TaskName]`
yields `nil` for a missing key and the subsequent `processConfig.Services`
field access dereferences that nil pointer: a runtime panic, not an error
return. -/
def resolveMachineFromAlloc (m : Migrator) (alloc : Alloc) : Except GoError LaunchInput :=
  if m.processConfigs.contains alloc.taskName then
    .ok { region := alloc.region, processGroup := alloc.taskName }
  else
    .error (.nilPanic ("nil pointer dereference: no process config for group " ++ alloc.taskName))

/-- `resolveMachinesFromAllocs`: one launch input per alloc, in order, first
failure stops. -/
def resolveMachinesFromAllocs (m : Migrator) : List Alloc → Except GoError (List LaunchInput)
  | [] => .ok []
  | a :: rest =>
    match resolveMachineFromAlloc m a with
    | .error e => .error e
    | .ok li =>
      match resolveMachinesFromAllocs m rest with
      | .error e => .error e
      | .ok ls => .ok (li :: ls)

/-- `resolveProcessGroups`: count allocs per task name. -/
def resolveProcessGroups (allocs : List Alloc) : List (String × Nat) :=
  (allocs.map (·.taskName)).dedup.map
    (fun g => (g, (allocs.filter (fun a => a.taskName == g)).length))

/-- `NewV2PlatformMigrator`: remote reads in source order, the
already-on-machines check, `validate`, then plan preparation
(`prepMachinesToCreate` / `resolveProcessGroups`).  No mutating remote call is
issued anywhere in construction. -/
def NewV2PlatformMigrator (inp : ConstructInput) : List Ev × Except GoError Migrator :=
  let tr0 : List Ev := [.getAppCompact, .getApp]
  if inp.platformVersion == "machines" then
    (tr0, .error (.err ("the app " ++ inp.appName ++ " is already on the apps v2 platform")))
  else
    let tr1 := tr0 ++ [.autoscalingConfig, .getImageInfo, .getAllocations, .appVMResources]
    match inp.vmSpecsError with
    | some e => (tr1, .error (.err ("nomad VM definition incompatible with machines API: " ++ e)))
    | none =>
      let m : Migrator :=
        { appName := inp.appName
          appPlatformVersion := inp.platformVersion
          autoscaleEnabled := inp.autoscaleEnabled
          configValidationError := inp.configValidationError
          mounts := inp.mounts
          processConfigs := inp.processConfigs
          oldAllocs := inp.allocs
          oldVmCounts := []
          newMachinesInput := []
          newMachines := []
          canAvoidDowntime := true
          appLock := ""
          releaseId := ""
          releaseVersion := 0
          recovery := RecoveryState.init inp.platformVersion }
      match validate m with
      | some e => (tr1, .error (.err e))
      | none =>
        match inp.primaryRegion with
        | none => (tr1, .error (.err "no region provided"))
        | some _ =>
          match resolveMachinesFromAllocs m m.oldAllocs with
          | .error e => (tr1, .error e)
          | .ok inputs =>
            match inp.configPathError with
            | some e => (tr1, .error (.err e))
            | none =>
              (tr1, .ok { m with newMachinesInput := inputs
                                 oldVmCounts := resolveProcessGroups m.oldAllocs })

end MigrateToV2

namespace MachineWait

/-- An error from `flapsClient.Wait`: a `flaps.FlapsError` carrying an HTTP
status, or any other error. -/
inductive WaitErr where
  | flaps (status : Nat)
  | generic (msg : String)
deriving Repr, DecidableEq

/-- The retry loop of `WaitForStartOrStop`.  `waits i` is the outcome of the
i-th `flapsClient.Wait` call (`none` = success).  The wait context's deadline
is modelled by `fuel`: the number of iterations the timeout allows; once it is
exhausted the deadline-exceeded branch returns the wrapped timeout error.  A
`FlapsError` with HTTP status 400 is returned at once; any other error is
retried after a backoff sleep.  Returns the list of states waited on (one per
`Wait` call) and the result. -/
def waitLoop (waits : Nat → Option WaitErr) (waitOnAction : String) :
    Nat → Nat → List String × Except String Unit
  | _, 0 => ([waitOnAction], .error ("timeout reached waiting for machine to " ++ waitOnAction))
  | i, fuel + 1 =>
    match waits i with
    | none => ([waitOnAction], .ok ())
    | some e =>
      match e with
      | .flaps status =>
        if status == 400 then
          ([waitOnAction], .error "failed waiting for machine: bad request")
        else
          let r := waitLoop waits waitOnAction (i + 1) fuel
          (waitOnAction :: r.1, r.2)
      | .generic _ =>
        let r := waitLoop waits waitOnAction (i + 1) fuel
        (waitOnAction :: r.1, r.2)

/-- `WaitForStartOrStop`: the action switch picks the lifecycle state to wait
on; any other action returns an error before any `Wait` call is issued. -/
def WaitForStartOrStop (waits : Nat → Option WaitErr) (action : String) (fuel : Nat) :
    List String × Except String Unit :=
  match action with
  | "start" => waitLoop waits "started" 0 fuel
  | "stop" => waitLoop waits "stopped" 0 fuel
  | _ => ([], .error "action must be either start or stop")

end MachineWait

namespace MigrateToV2

/-! ## Derived event classifications and reference functions -/

/-- Events that are issued only by the rollback path (remote compensating
calls): machine destroys and the unconditional app resume. -/
def Ev.isRollbackOnly : Ev → Bool
  | .destroy _ => true
  | .resumeApp => true
  | _ => false

/-- Destroy events. -/
def Ev.isDestroy : Ev → Bool
  | .destroy _ => true
  | _ => false

/-- The machines produced by the successful launches before the first launch
failure (reading the launch oracle from call index `i`, for `fuel` inputs):
the reference value for what `createMachines` must record in the recovery
ledger. -/
def launchedMachines (env : Env) : Nat → Nat → List Machine
  | _, 0 => []
  | i, fuel + 1 =>
    match env.launch i with
    | .error _ => []
    | .ok mach => mach :: launchedMachines env (i + 1) fuel

/-- The trace the creation loop produces when the first `n` launches starting
at index `i` all succeed: `Launch` then the debug `ListActive`, per machine. -/
def launchEvents : Nat → Nat → List Ev
  | _, 0 => []
  | i, n + 1 => .launch i :: .listActive :: launchEvents (i + 1) n

/-- The machines returned by launch calls `i, i+1, …, i+n-1` (all assumed to
succeed with `machs` as the result oracle). -/
def machsFrom (machs : Nat → Machine) : Nat → Nat → List Machine
  | _, 0 => []
  | i, n + 1 => machs i :: machsFrom machs (i + 1) n

/-! ## Concrete fixtures for witnesses and counterexamples -/

/-- An environment in which every remote call succeeds. -/
def okEnv : Env :=
  { lockApp := .ok "lock1"
    setVMCountZero := .ok ()
    setVMCountRestore := .ok ()
    allocPolls := fun _ => .ok 0
    waitFuel := 3
    setPlatform := fun _ => .ok ()
    createRelease := .ok ("rel1", 7)
    launch := fun i => .ok ⟨i + 100⟩
    acquireLeases := .ok ()
    unlock := .ok ()
    newMachineDeployment := .ok ()
    writeConfig := .ok ()
    destroy := fun _ => .ok ()
    resume := .ok () }

/-- A nomad app with three allocs in groups {"web": 2, "worker": 1}: the
worked scenario of the specification. -/
def baseMigrator : Migrator :=
  { appName := "demo"
    appPlatformVersion := "nomad"
    autoscaleEnabled := false
    configValidationError := none
    mounts := none
    processConfigs := ["web", "worker"]
    oldAllocs := [⟨"a1", "web", "lhr", []⟩, ⟨"a2", "web", "lhr", []⟩, ⟨"a3", "worker", "lhr", []⟩]
    oldVmCounts := [("web", 2), ("worker", 1)]
    newMachinesInput := [⟨"lhr", "web"⟩, ⟨"lhr", "web"⟩, ⟨"lhr", "worker"⟩]
    newMachines := []
    canAvoidDowntime := true
    appLock := ""
    releaseId := ""
    releaseVersion := 0
    recovery := RecoveryState.init "nomad" }

/-- An app that has autoscaling enabled *and* a `[mounts]` section *and* an
alloc ("a2", group "beat") with no process-config entry. -/
def autoscaleMigrator : Migrator :=
  { baseMigrator with
      autoscaleEnabled := true
      mounts := some "/data"
      oldAllocs := [⟨"a1", "web", "lhr", ["vol1"]⟩, ⟨"a2", "beat", "lhr", []⟩] }

/-- Constructor input: autoscaling enabled and an alloc (group "cron") with no
process-config entry; everything else is clean. -/
def c7Input : ConstructInput :=
  { appName := "demo"
    platformVersion := "nomad"
    configValidationError := none
    mounts := none
    processConfigs := ["web"]
    autoscaleEnabled := true
    allocs := [⟨"a1", "web", "lhr", []⟩, ⟨"a2", "cron", "lhr", []⟩]
    vmSpecsError := none
    primaryRegion := some "lhr"
    configPathError := none }

/-- All calls succeed except the `GetAllocations` polls inside
`waitForAllocsZero`. -/
def scaleFailEnv : Env :=
  { okEnv with allocPolls := fun _ => .error "GetAllocations failed", waitFuel := 5 }

/-- All calls succeed except destroying machine 1. -/
def destroyFailEnv : Env :=
  { okEnv with destroy := fun id => if id == 1 then .error "destroy failed" else .ok () }

/-- A recovery state as left by a failure after two machines were created
while holding the lock with the platform marker on "detached". -/
def rbMigrator : Migrator :=
  { baseMigrator with
      recovery := { RecoveryState.init "detached" with
                      machinesCreated := [⟨1⟩, ⟨2⟩], appLocked := true } }

/-- All calls succeed except the local config write. -/
def writeFailEnv : Env :=
  { okEnv with writeConfig := .error "disk full" }

/-- A wait oracle whose first call fails with a generic (non-400) error and
whose second call succeeds. -/
def flakyWaits : Nat → Option MachineWait.WaitErr :=
  fun i => if i == 0 then some (.generic "boom") else none

/-- All calls succeed except the second machine launch. -/
def launchFailEnv : Env :=
  { okEnv with launch := fun i => if i == 1 then .error "boom" else .ok ⟨i + 100⟩ }

/-- The machines `okEnv`/`launchFailEnv` hand out for successful launches. -/
def okMachs : Nat → Machine := fun i => ⟨i + 100⟩

/-- Alloc polling: the first poll sees 5 allocs alive, the second errors. -/
def pollErrEnv : Env :=
  { okEnv with
      allocPolls := fun i => if i == 0 then .ok 5 else .error "api down"
      waitFuel := 4 }

/-- A wait oracle that always fails with an HTTP 400 flaps error. -/
def waits400 : Nat → Option MachineWait.WaitErr := fun _ => some (.flaps 400)

end MigrateToV2

namespace MigrateToV2

/-! # Theorems -/

/-- **C3** (code bug): for an app with autoscaling enabled, `validateScaling`
produces the advertised precondition error, yet `validate` discards it — the
source reads `if err != nil { return nil }` — and thereby also skips the
volume and process-group checks (which would both fire on this app), so
`validate` reports success and construction proceeds to mutate-capable code.
The claim (validate returns the autoscaling error and the remaining
precondition checks are still enforced) matches the code's own FIXME comment
("for now we fail if there is autoscaling"), not its behaviour. -/
theorem c3_validate_swallows_autoscaling_error :
    validateScaling autoscaleMigrator =
      some "cannot migrate app demo with autoscaling config, yet" ∧
    validateVolumes autoscaleMigrator ≠ none ∧
    validateProcessGroupsOnAllocs autoscaleMigrator ≠ none ∧
    validate autoscaleMigrator = none := by
  refine ⟨rfl, ?_, ?_, rfl⟩ <;> decide

/-- **C7** (code bug): a fleet snapshot with a legacy instance (group "cron")
lacking a process-config entry, on an app whose autoscaling is enabled: the
swallowed scaling error aborts validation before `validateProcessGroupsOnAllocs`
runs, so `NewV2PlatformMigrator` does not fail with a precondition error —
it crashes with a nil-pointer dereference inside `resolveMachineFromAlloc`.
It does still issue zero remote mutating calls. -/
theorem c7_construction_panics_not_precondition_error :
    (NewV2PlatformMigrator c7Input).2 =
      .error (.nilPanic "nil pointer dereference: no process config for group cron") ∧
    (NewV2PlatformMigrator c7Input).1.filter Ev.isMutating = [] :=
  ⟨rfl, rfl⟩

/-- **C2** (counterexample): with two machines recorded and the destroy of
machine 1 failing, `rollback` surfaces that failure but never issues a destroy
call for machine 2 — it does not continue past individual destroy failures. -/
theorem c2_rollback_stops_at_first_destroy_failure :
    Machine.mk 2 ∈ rbMigrator.recovery.machinesCreated ∧
    (rollback destroyFailEnv rbMigrator).2.2 = some "destroy failed" ∧
    Ev.destroy 2 ∉ (rollback destroyFailEnv rbMigrator).1 := by
  decide

/-- **C4** (counterexample): in a fully successful migration run, a
`ReleaseLeases` call appears in the trace strictly before the cutover
(`DeployMachinesApp`) call — the leases are explicitly released right before
`deployApp`, not only after the cutover returns. -/
theorem c4_leases_released_before_cutover :
    (Migrate okEnv none baseMigrator).err = none ∧
    Ev.releaseLeases ∈ (Migrate okEnv none baseMigrator).trace ∧
    Ev.deployMachinesApp ∈ (Migrate okEnv none baseMigrator).trace ∧
    (Migrate okEnv none baseMigrator).trace.indexOf Ev.releaseLeases <
      (Migrate okEnv none baseMigrator).trace.indexOf Ev.deployMachinesApp := by
  decide

/-- **C6** (counterexample): `scaleNomadToZero` issues the scale-to-zero
mutation successfully, then the alloc-drain poll fails; the step returns the
error with `recovery.scaledToZero` still `false`, so the tracker is not
consistent with remote reality at that return. -/
theorem c6_scaledToZero_not_set_on_wait_failure :
    Ev.setVMCount [("web", 0), ("worker", 0)] ∈ (scaleNomadToZero scaleFailEnv baseMigrator).1 ∧
    scaleFailEnv.setVMCountZero = .ok () ∧
    (scaleNomadToZero scaleFailEnv baseMigrator).2.2 = some "GetAllocations failed" ∧
    (scaleNomadToZero scaleFailEnv baseMigrator).2.1.recovery.scaledToZero = false :=
  ⟨by decide, rfl, by decide, by decide⟩

/-! ## Helper lemmas: the machine-creation loop -/

theorem machsFrom_length (machs : Nat → Machine) :
    ∀ (i n : Nat), (machsFrom machs i n).length = n
  | _, 0 => rfl
  | i, n + 1 => by simp [machsFrom, machsFrom_length machs (i + 1) n]

theorem machsFrom_mem (machs : Nat → Machine) :
    ∀ (i n : Nat) (mach : Machine), mach ∈ machsFrom machs i n → ∃ j, j < n ∧ mach = machs (i + j)
  | i, n + 1, mach, h => by
    rcases List.mem_cons.mp h with h1 | h2
    · exact ⟨0, Nat.succ_pos n, by simpa using h1⟩
    · obtain ⟨j, hj, hm⟩ := machsFrom_mem machs (i + 1) n mach h2
      exact ⟨j + 1, by omega, by rw [hm]; ring_nf⟩

/-- The creation loop always leaves (in its machines component, written to the
recovery ledger by the deferred assignment) the accumulator extended by the
machines of the successful launches that precede the first failure. -/
theorem createMachinesGo_machines (env : Env) :
    ∀ (inputs : List LaunchInput) (i : Nat) (acc : List Machine),
      (createMachinesGo env inputs i acc).2.1 = acc ++ launchedMachines env i inputs.length
  | [], i, acc => by simp [createMachinesGo, launchedMachines]
  | inp :: rest, i, acc => by
    simp only [createMachinesGo, List.length_cons, launchedMachines]
    cases h : env.launch i with
    | error e => simp
    | ok mach => simp [createMachinesGo_machines env rest (i + 1) (acc ++ [mach])]

/-- Characterization of the creation loop when the first `n` launches all
succeed. -/
theorem createMachinesGo_all_ok (env : Env) (machs : Nat → Machine) :
    ∀ (inputs : List LaunchInput) (i : Nat) (acc : List Machine),
      (∀ j, j < inputs.length → env.launch (i + j) = .ok (machs (i + j))) →
      createMachinesGo env inputs i acc =
        (launchEvents i inputs.length, acc ++ machsFrom machs i inputs.length, none)
  | [], i, acc, _ => by simp [createMachinesGo, launchEvents, machsFrom]
  | inp :: rest, i, acc, hok => by
    have h0 : env.launch i = .ok (machs i) := by
      simpa using hok 0 (by simp only [List.length_cons]; omega)
    have hrest : ∀ j, j < rest.length → env.launch (i + 1 + j) = .ok (machs (i + 1 + j)) := by
      intro j hj
      have heq : i + 1 + j = i + (j + 1) := by omega
      rw [heq]
      exact hok (j + 1) (by simp only [List.length_cons]; omega)
    have hrec := createMachinesGo_all_ok env machs rest (i + 1) (acc ++ [machs i]) hrest
    simp only [createMachinesGo, List.length_cons, launchEvents, machsFrom, h0, hrec]
    simp

/-- Characterization of the creation loop when launches `i..i+d-1` succeed and
launch `i+d` fails: the loop stops there, keeping the `d` machines created. -/
theorem createMachinesGo_fail (env : Env) (machs : Nat → Machine) (e : String) :
    ∀ (inputs : List LaunchInput) (d i : Nat) (acc : List Machine),
      d < inputs.length →
      (∀ j, j < d → env.launch (i + j) = .ok (machs (i + j))) →
      env.launch (i + d) = .error e →
      ∃ msg, createMachinesGo env inputs i acc =
        (launchEvents i d ++ [.launch (i + d), .listActive], acc ++ machsFrom machs i d, some msg)
  | inp :: rest, 0, i, acc, _, _, hfail => by
    refine ⟨"failed creating a machine in region " ++ inp.region ++ ": " ++ e, ?_⟩
    simp only [createMachinesGo]
    rw [show i + 0 = i from rfl] at hfail
    simp [hfail, launchEvents, machsFrom]
  | inp :: rest, d + 1, i, acc, hd, hok, hfail => by
    have h0 : env.launch i = .ok (machs i) := by simpa using hok 0 (Nat.succ_pos _)
    have hrest : ∀ j, j < d → env.launch (i + 1 + j) = .ok (machs (i + 1 + j)) := by
      intro j hj
      have heq : i + 1 + j = i + (j + 1) := by omega
      rw [heq]
      exact hok (j + 1) (by omega)
    have hfail' : env.launch (i + 1 + d) = .error e := by
      have heq : i + 1 + d = i + (d + 1) := by omega
      rw [heq]
      exact hfail
    obtain ⟨msg, hrec⟩ := createMachinesGo_fail env machs e rest d (i + 1) (acc ++ [machs i])
      (by simp only [List.length_cons] at hd; omega) hrest hfail'
    refine ⟨msg, ?_⟩
    have heq : i + (d + 1) = i + 1 + d := by omega
    simp only [createMachinesGo, h0, hrec, launchEvents, machsFrom, heq]
    simp

/-! ## Helper lemmas: the rollback destroy loop -/

theorem destroyLoop_all_ok (env : Env) :
    ∀ (ms : List Machine), (∀ mach ∈ ms, env.destroy mach.id = .ok ()) →
      destroyLoop env ms = (ms.map (fun mach => Ev.destroy mach.id), none)
  | [], _ => rfl
  | mach :: rest, hok => by
    have h0 : env.destroy mach.id = .ok () := hok mach (List.mem_cons_self _ _)
    simp [destroyLoop, h0, destroyLoop_all_ok env rest (fun x hx => hok x (List.mem_cons_of_mem _ hx))]

theorem destroyLoop_first_fail (env : Env) (e : String) :
    ∀ (ms₁ : List Machine) (failMach : Machine) (ms₂ : List Machine),
      (∀ mach ∈ ms₁, env.destroy mach.id = .ok ()) →
      env.destroy failMach.id = .error e →
      destroyLoop env (ms₁ ++ failMach :: ms₂) =
        ((ms₁ ++ [failMach]).map (fun mach => Ev.destroy mach.id), some e)
  | [], failMach, ms₂, _, hfail => by simp [destroyLoop, hfail]
  | mach :: rest, failMach, ms₂, hok, hfail => by
    have h0 : env.destroy mach.id = .ok () := hok mach (List.mem_cons_self _ _)
    simp [destroyLoop, h0,
      destroyLoop_first_fail env e rest failMach ms₂
        (fun x hx => hok x (List.mem_cons_of_mem _ hx)) hfail]

/-! ## Helper lemmas: rollback -/

theorem destroyLoop_filter (env : Env) :
    ∀ ms : List Machine, (destroyLoop env ms).1.filter Ev.isDestroy = (destroyLoop env ms).1
  | [] => rfl
  | mach :: rest => by
    cases h : env.destroy mach.id <;>
      simp [destroyLoop, h, Ev.isDestroy, destroyLoop_filter env rest]

theorem updateAppPlatformVersion_no_destroy (env : Env) (m : Migrator) (p : String) :
    (updateAppPlatformVersion env m p).1.filter Ev.isDestroy = [] := by
  cases h : env.setPlatform p <;> simp [updateAppPlatformVersion, h, Ev.isDestroy]

/-- The restoration steps after the destroy loop issue no destroy calls. -/
theorem rollbackPostDestroy_no_destroy (env : Env) (m : Migrator) :
    (rollbackPostDestroy env m).1.filter Ev.isDestroy = [] := by
  unfold rollbackPostDestroy updateAppPlatformVersion
  rcases hsp : env.setPlatform "nomad" with e | u <;>
    rcases hres : env.setVMCountRestore with e2 | u2 <;>
    by_cases hpv : m.recovery.platformVersion ≠ "nomad" <;>
    simp [hsp, hres, hpv, Ev.isDestroy] <;>
    split <;> simp [Ev.isDestroy]

/-- The restoration steps only ever touch `recovery.platformVersion`. -/
theorem rollbackPostDestroy_recovery (env : Env) (m : Migrator) :
    (rollbackPostDestroy env m).2.1.recovery.appLocked = m.recovery.appLocked ∧
    (rollbackPostDestroy env m).2.1.recovery.machinesCreated = m.recovery.machinesCreated ∧
    (rollbackPostDestroy env m).2.1.recovery.onlyPromptToConfigSave =
      m.recovery.onlyPromptToConfigSave := by
  unfold rollbackPostDestroy updateAppPlatformVersion
  rcases hsp : env.setPlatform "nomad" with e | u <;>
    rcases hres : env.setVMCountRestore with e2 | u2 <;>
    by_cases hpv : m.recovery.platformVersion ≠ "nomad" <;>
    simp [hsp, hres, hpv] <;>
    split <;> simp

theorem rollbackDefer_no_destroy (env : Env) (m : Migrator) :
    (rollbackDefer env m).1.filter Ev.isDestroy = [] := by
  cases hl : m.recovery.appLocked <;> cases hu : env.unlock <;>
    simp [rollbackDefer, unlockApp, hl, hu, Ev.isDestroy]

theorem rollbackDefer_resume (env : Env) (m : Migrator) :
    Ev.resumeApp ∈ (rollbackDefer env m).1 := by
  cases hl : m.recovery.appLocked <;> cases hu : env.unlock <;>
    simp [rollbackDefer, unlockApp, hl, hu]

/-- After the deferred tail, the app is unlocked whenever the unlock call
succeeds. -/
theorem rollbackDefer_unlocks (env : Env) (m : Migrator) (hu : env.unlock = .ok ()) :
    (rollbackDefer env m).2.recovery.appLocked = false := by
  cases hl : m.recovery.appLocked <;>
    simp [rollbackDefer, unlockApp, hl, hu]

theorem rollbackDefer_flag (env : Env) (m : Migrator) :
    (rollbackDefer env m).2.recovery.onlyPromptToConfigSave =
      m.recovery.onlyPromptToConfigSave := by
  cases hl : m.recovery.appLocked <;> cases hu : env.unlock <;>
    simp [rollbackDefer, unlockApp, hl, hu]

theorem rollback_err (env : Env) (m : Migrator) :
    (rollback env m).2.2 = (rollbackBody env m).2.2 := by
  unfold rollback
  rcases h : rollbackBody env m with ⟨tb, mb, errb⟩
  rcases h2 : rollbackDefer env mb with ⟨td, md⟩
  simp

theorem rollback_trace (env : Env) (m : Migrator) :
    (rollback env m).1 =
      (rollbackBody env m).1 ++ (rollbackDefer env (rollbackBody env m).2.1).1 := by
  unfold rollback
  rcases h : rollbackBody env m with ⟨tb, mb, errb⟩
  rcases h2 : rollbackDefer env mb with ⟨td, md⟩
  simp [h2]

theorem rollback_final_m (env : Env) (m : Migrator) :
    (rollback env m).2.1 = (rollbackDefer env (rollbackBody env m).2.1).2 := by
  unfold rollback
  rcases h : rollbackBody env m with ⟨tb, mb, errb⟩
  rcases h2 : rollbackDefer env mb with ⟨td, md⟩
  simp [h2]

/-- The destroy calls of a full `rollback` run are exactly the trace of its
destroy loop over the recorded machines. -/
theorem rollback_destroy_filter (env : Env) (m : Migrator) :
    (rollback env m).1.filter Ev.isDestroy = (destroyLoop env m.recovery.machinesCreated).1 := by
  rw [rollback_trace, List.filter_append, rollbackDefer_no_destroy, List.append_nil]
  unfold rollbackBody
  by_cases hlen : m.recovery.machinesCreated.length > 0
  · simp only [hlen, if_true]
    rcases hd : destroyLoop env m.recovery.machinesCreated with ⟨t, err⟩
    have hfil : t.filter Ev.isDestroy = t := by
      have := destroyLoop_filter env m.recovery.machinesCreated
      rw [hd] at this
      exact this
    cases err with
    | some e => simpa using hfil
    | none =>
      rcases hpd : rollbackPostDestroy env m with ⟨t2, m2, err2⟩
      have hpd2 := rollbackPostDestroy_no_destroy env m
      rw [hpd] at hpd2
      simp [List.filter_append, hfil, hpd2]
  · have hnil : m.recovery.machinesCreated = [] := by
      cases hms : m.recovery.machinesCreated with
      | nil => rfl
      | cons a as => rw [hms] at hlen; simp at hlen
    rcases hpd : rollbackPostDestroy env m with ⟨t2, m2, err2⟩
    have hpd2 := rollbackPostDestroy_no_destroy env m
    rw [hpd] at hpd2
    simp [hlen, hnil, destroyLoop, hpd2]

/-- A rollback after a failure leaves the recovery flag untouched and, when
the unlock call succeeds, the app unlocked; the resume call is always made. -/
theorem rollback_flag (env : Env) (m : Migrator) :
    (rollback env m).2.1.recovery.onlyPromptToConfigSave =
      m.recovery.onlyPromptToConfigSave := by
  rw [rollback_final_m, rollbackDefer_flag]
  unfold rollbackBody
  rcases hd : (if m.recovery.machinesCreated.length > 0 then
      destroyLoop env m.recovery.machinesCreated else ([], none)) with ⟨t, err⟩
  cases err with
  | some e => simp [hd]
  | none =>
    rcases hpd : rollbackPostDestroy env m with ⟨t2, m2, err2⟩
    have h3 := (rollbackPostDestroy_recovery env m).2.2
    rw [hpd] at h3
    simp only at h3
    simp [hd, hpd, h3]

end MigrateToV2

namespace MigrateToV2

/-- A helper for claim C6: on an error return `scaleNomadToZero` leaves the
migrator entirely unchanged. -/
theorem scaleNomadToZero_err_state (env : Env) (m : Migrator) :
    ∀ e, (scaleNomadToZero env m).2.2 = some e → (scaleNomadToZero env m).2.1 = m := by
  unfold scaleNomadToZero
  rcases hsv : env.setVMCountZero with e1 | u <;>
    by_cases hgc : 0 < m.oldVmCounts.length <;>
    rcases hw : waitForAllocsZero env with ⟨tw, errw⟩ <;>
    cases errw <;>
    simp [hsv, hgc, hw]

/-- **C1**: when the k-th sequential creation call fails (1 ≤ k ≤ N), exactly
the k−1 machines created before it are recorded in the recovery ledger at the
moment `createMachines` returns its error, and `rollback` (whose destroys all
succeed) issues a destroy call for exactly those k−1 machines. -/
theorem c1_partial_create_rollback (env : Env) (m : Migrator) (machs : Nat → Machine)
    (k : Nat) (e : String)
    (hk : 1 ≤ k) (hN : k ≤ m.newMachinesInput.length)
    (hok : ∀ j, j < k - 1 → env.launch j = .ok (machs j))
    (hfail : env.launch (k - 1) = .error e)
    (hdestroy : ∀ j, j < k - 1 → env.destroy (machs j).id = .ok ()) :
    (∃ msg, (createMachines env m).2.2 = some msg) ∧
    (createMachines env m).2.1.recovery.machinesCreated = machsFrom machs 0 (k - 1) ∧
    ((createMachines env m).2.1.recovery.machinesCreated).length = k - 1 ∧
    (rollback env (createMachines env m).2.1).1.filter Ev.isDestroy =
      (machsFrom machs 0 (k - 1)).map (fun mach => Ev.destroy mach.id) := by
  have hok' : ∀ j, j < k - 1 → env.launch (0 + j) = .ok (machs (0 + j)) := by
    intro j hj; simpa using hok j hj
  have hfail' : env.launch (0 + (k - 1)) = .error e := by simpa using hfail
  obtain ⟨msg, hgo⟩ := createMachinesGo_fail env machs e m.newMachinesInput (k - 1) 0 []
    (by omega) hok' hfail'
  have hcm : (createMachines env m).2.1.recovery.machinesCreated = machsFrom machs 0 (k - 1) ∧
      (createMachines env m).2.2 = some msg := by
    unfold createMachines
    rw [hgo]
    simp
  have hall : ∀ mach ∈ machsFrom machs 0 (k - 1), env.destroy mach.id = .ok () := by
    intro mach hm
    obtain ⟨j, hj, hmeq⟩ := machsFrom_mem machs 0 (k - 1) mach hm
    rw [hmeq]
    simpa using hdestroy j hj
  refine ⟨⟨msg, hcm.2⟩, hcm.1, ?_, ?_⟩
  · rw [hcm.1, machsFrom_length]
  · rw [rollback_destroy_filter, hcm.1, destroyLoop_all_ok env _ hall]

/-- **C1** (witness): three specs, the second launch fails (k = 2): one
machine is recorded and exactly that one is destroyed by rollback. -/
theorem c1_partial_create_rollback_witness :
    (1 ≤ 2 ∧ 2 ≤ baseMigrator.newMachinesInput.length ∧
     launchFailEnv.launch 1 = .error "boom") ∧
    ((∃ msg, (createMachines launchFailEnv baseMigrator).2.2 = some msg) ∧
     (createMachines launchFailEnv baseMigrator).2.1.recovery.machinesCreated =
       machsFrom okMachs 0 1 ∧
     ((createMachines launchFailEnv baseMigrator).2.1.recovery.machinesCreated).length = 1 ∧
     (rollback launchFailEnv (createMachines launchFailEnv baseMigrator).2.1).1.filter
         Ev.isDestroy =
       (machsFrom okMachs 0 1).map (fun (mach : Machine) => Ev.destroy mach.id)) :=
  ⟨⟨by decide, by decide, by decide⟩,
   c1_partial_create_rollback launchFailEnv baseMigrator okMachs 2 "boom"
     (by decide) (by decide) (by decide) (by decide) (by decide)⟩

/-- **C2** (amended): rollback destroys the recorded machines in order but
stops at the first destroy failure, surfacing that error and issuing destroy
calls for exactly the prefix up to and including the failing machine; the
deferred unlock-and-resume tail still runs. -/
theorem c2_amended_rollback_first_failure (env : Env) (m : Migrator)
    (ms₁ : List Machine) (failMach : Machine) (ms₂ : List Machine) (e : String)
    (hsplit : m.recovery.machinesCreated = ms₁ ++ failMach :: ms₂)
    (hok : ∀ mach ∈ ms₁, env.destroy mach.id = .ok ())
    (hfail : env.destroy failMach.id = .error e) :
    (rollback env m).2.2 = some e ∧
    (rollback env m).1.filter Ev.isDestroy =
      (ms₁ ++ [failMach]).map (fun mach => Ev.destroy mach.id) ∧
    Ev.resumeApp ∈ (rollback env m).1 := by
  have hdl := destroyLoop_first_fail env e ms₁ failMach ms₂ hok hfail
  have hlen : m.recovery.machinesCreated.length > 0 := by rw [hsplit]; simp
  refine ⟨?_, ?_, ?_⟩
  · rw [rollback_err]
    unfold rollbackBody
    have hlen2 : (ms₁ ++ failMach :: ms₂).length > 0 := by simp
    simp [hsplit, hlen2, hdl]
  · rw [rollback_destroy_filter, hsplit, hdl]
  · rw [rollback_trace]
    exact List.mem_append_right _ (rollbackDefer_resume env _)

/-- **C2** (amended, witness): two recorded machines, destroy of the first
fails: the error surfaces, only one destroy call is issued, and the deferred
resume still runs. -/
theorem c2_amended_rollback_first_failure_witness :
    (rbMigrator.recovery.machinesCreated = [] ++ Machine.mk 1 :: [Machine.mk 2] ∧
     destroyFailEnv.destroy (Machine.mk 1).id = .error "destroy failed") ∧
    ((rollback destroyFailEnv rbMigrator).2.2 = some "destroy failed" ∧
     (rollback destroyFailEnv rbMigrator).1.filter Ev.isDestroy =
       ([] ++ [Machine.mk 1]).map (fun (mach : Machine) => Ev.destroy mach.id) ∧
     Ev.resumeApp ∈ (rollback destroyFailEnv rbMigrator).1) :=
  ⟨⟨by decide, by decide⟩,
   c2_amended_rollback_first_failure destroyFailEnv rbMigrator [] ⟨1⟩ [⟨2⟩] "destroy failed"
     (by decide) (by simp) (by decide)⟩

/-- **C6** (amended): `lockAppForMigration` records the held lock before
returning, and `createMachines` always records exactly the successfully
launched machines in the recovery ledger before returning, error or not
(via its deferred assignment); `scaleNomadToZero` however leaves
`recovery.scaledToZero` unchanged on *every* error return — including when
the remote scale-to-zero mutation has already succeeded and only the
alloc-drain wait failed. -/
theorem c6_amended_sync_recovery :
    (∀ (env : Env) (m : Migrator) (lockId : String),
        env.lockApp = .ok lockId → (lockAppForMigration env m).2.1.recovery.appLocked = true) ∧
    (∀ (env : Env) (m : Migrator),
        (createMachines env m).2.1.recovery.machinesCreated =
          launchedMachines env 0 m.newMachinesInput.length) ∧
    (∀ (env : Env) (m : Migrator) (e : String),
        (scaleNomadToZero env m).2.2 = some e →
        (scaleNomadToZero env m).2.1.recovery.scaledToZero = m.recovery.scaledToZero) := by
  refine ⟨?_, ?_, ?_⟩
  · intro env m lockId h
    simp [lockAppForMigration, h]
  · intro env m
    unfold createMachines
    have hmach := createMachinesGo_machines env m.newMachinesInput 0 []
    rcases hgo : createMachinesGo env m.newMachinesInput 0 [] with ⟨t, created, err⟩
    rw [hgo] at hmach
    simp only at hmach
    cases err <;> simp [hmach]
  · intro env m e herr
    rw [scaleNomadToZero_err_state env m e herr]

/-- **C6** (amended, witness): instantiated at the all-success environment and
at the environment where the alloc-drain poll fails after a successful
scale-to-zero mutation. -/
theorem c6_amended_sync_recovery_witness :
    (okEnv.lockApp = .ok "lock1" ∧
     (scaleNomadToZero scaleFailEnv baseMigrator).2.2 = some "GetAllocations failed") ∧
    ((lockAppForMigration okEnv baseMigrator).2.1.recovery.appLocked = true ∧
     (createMachines okEnv baseMigrator).2.1.recovery.machinesCreated =
       launchedMachines okEnv 0 baseMigrator.newMachinesInput.length ∧
     (scaleNomadToZero scaleFailEnv baseMigrator).2.1.recovery.scaledToZero =
       baseMigrator.recovery.scaledToZero) :=
  ⟨⟨rfl, by decide⟩,
   c6_amended_sync_recovery.1 okEnv baseMigrator "lock1" rfl,
   c6_amended_sync_recovery.2.1 okEnv baseMigrator,
   c6_amended_sync_recovery.2.2 scaleFailEnv baseMigrator "GetAllocations failed" (by decide)⟩

/-- **C9** (counterexample): `WaitForStartOrStop` does not propagate a generic
error from its wait condition — the first wait call fails with a non-400
error, a second wait call is issued after backoff, and the function returns
success. -/
theorem c9_wait_error_is_retried :
    flakyWaits 0 = some (.generic "boom") ∧
    MachineWait.WaitForStartOrStop flakyWaits "start" 5 = (["started", "started"], .ok ()) :=
  ⟨rfl, rfl⟩

/-! ## Helper lemmas: the pollers -/

/-- If the first `d` alloc polls see a non-zero fleet and poll `d` errors
(within the timeout's fuel), the wait loop returns that error after exactly
`d + 1` polls. -/
theorem waitForAllocsZeroGo_error (env : Env) (e : String) :
    ∀ (d i fuel : Nat), d < fuel →
      (∀ j, j < d → ∃ n, env.allocPolls (i + j) = .ok n ∧ n ≠ 0) →
      env.allocPolls (i + d) = .error e →
      waitForAllocsZeroGo env i fuel = (List.replicate (d + 1) Ev.getAllocations, some e)
  | _, _, 0, hd, _, _ => absurd hd (by omega)
  | 0, i, fuel + 1, _, _, hfail => by
    rw [show i + 0 = i from rfl] at hfail
    simp [waitForAllocsZeroGo, hfail]
  | d + 1, i, fuel + 1, hd, hok, hfail => by
    obtain ⟨n, hn, hne⟩ := hok 0 (by omega)
    rw [show i + 0 = i from rfl] at hn
    have hok' : ∀ j, j < d → ∃ n, env.allocPolls (i + 1 + j) = .ok n ∧ n ≠ 0 := by
      intro j hj
      have heq : i + 1 + j = i + (j + 1) := by omega
      rw [heq]
      exact hok (j + 1) (by omega)
    have hfail' : env.allocPolls (i + 1 + d) = .error e := by
      have heq : i + 1 + d = i + (d + 1) := by omega
      rw [heq]
      exact hfail
    have hrec := waitForAllocsZeroGo_error env e d (i + 1) fuel (by omega) hok' hfail'
    simp [waitForAllocsZeroGo, hn, hne, hrec, List.replicate_succ]

theorem waitLoop_trace_ne_nil (waits : Nat → Option MachineWait.WaitErr) (s : String) :
    ∀ (i fuel : Nat), (MachineWait.waitLoop waits s i fuel).1 ≠ []
  | _, 0 => by simp [MachineWait.waitLoop]
  | i, fuel + 1 => by
    cases h : waits i with
    | none => simp [MachineWait.waitLoop, h]
    | some e =>
      cases e with
      | flaps status =>
        by_cases h4 : status == 400 <;> simp [MachineWait.waitLoop, h, h4]
      | generic msg => simp [MachineWait.waitLoop, h]

theorem WaitForStartOrStop_start (waits : Nat → Option MachineWait.WaitErr) (fuel : Nat) :
    MachineWait.WaitForStartOrStop waits "start" fuel =
      MachineWait.waitLoop waits "started" 0 fuel := rfl

theorem WaitForStartOrStop_stop (waits : Nat → Option MachineWait.WaitErr) (fuel : Nat) :
    MachineWait.WaitForStartOrStop waits "stop" fuel =
      MachineWait.waitLoop waits "stopped" 0 fuel := rfl

theorem waitLoop_states (waits : Nat → Option MachineWait.WaitErr) (s : String) :
    ∀ (fuel i : Nat), ∀ x ∈ (MachineWait.waitLoop waits s i fuel).1, x = s
  | 0, i => by simp [MachineWait.waitLoop]
  | fuel + 1, i => by
    intro x hx
    cases h : waits i with
    | none =>
      simp only [MachineWait.waitLoop, h] at hx
      simpa using hx
    | some e =>
      cases e with
      | flaps status =>
        by_cases h4 : (status == 400) = true
        · simp only [MachineWait.waitLoop, h, h4, if_true] at hx
          simpa using hx
        · simp only [MachineWait.waitLoop, h, if_neg h4] at hx
          rcases List.mem_cons.mp hx with h1 | h2
          · exact h1
          · exact waitLoop_states waits s fuel (i + 1) x h2
      | generic msg =>
        simp only [MachineWait.waitLoop, h] at hx
        rcases List.mem_cons.mp hx with h1 | h2
        · exact h1
        · exact waitLoop_states waits s fuel (i + 1) x h2

/-- **C9** (amended): `waitForAllocsZero` propagates an error from its
condition immediately — exactly one poll after the last "not yet done" one,
with no retry.  `WaitForStartOrStop`, however, propagates immediately only an
HTTP 400 flaps error (and the timeout); any other wait error is retried with
at least one further wait call after the backoff sleep. -/
theorem c9_amended_error_propagation :
    (∀ (env : Env) (i : Nat) (e : String), i < env.waitFuel →
        (∀ j, j < i → ∃ n, env.allocPolls j = .ok n ∧ n ≠ 0) →
        env.allocPolls i = .error e →
        waitForAllocsZero env = (List.replicate (i + 1) Ev.getAllocations, some e)) ∧
    (∀ (waits : Nat → Option MachineWait.WaitErr) (fuel : Nat),
        waits 0 = some (.flaps 400) → 0 < fuel →
        MachineWait.WaitForStartOrStop waits "start" fuel =
          (["started"], .error "failed waiting for machine: bad request")) ∧
    (∀ (waits : Nat → Option MachineWait.WaitErr) (fuel : Nat) (w : MachineWait.WaitErr),
        waits 0 = some w → w ≠ .flaps 400 →
        2 ≤ (MachineWait.WaitForStartOrStop waits "start" (fuel + 1)).1.length) := by
  refine ⟨?_, ?_, ?_⟩
  · intro env i e hif hok hfail
    unfold waitForAllocsZero
    exact waitForAllocsZeroGo_error env e i 0 env.waitFuel hif
      (by intro j hj; simpa using hok j hj) (by simpa using hfail)
  · intro waits fuel h400 hfuel
    rcases fuel with _ | f
    · omega
    · rw [WaitForStartOrStop_start]
      simp [MachineWait.waitLoop, h400]
  · intro waits fuel w hw hne
    have hne' : (MachineWait.waitLoop waits "started" 1 fuel).1 ≠ [] :=
      waitLoop_trace_ne_nil waits "started" 1 fuel
    have hcons : (MachineWait.waitLoop waits "started" 0 (fuel + 1)).1 =
        "started" :: (MachineWait.waitLoop waits "started" 1 fuel).1 := by
      cases w with
      | flaps status =>
        have h4 : (status == 400) = false := by
          rw [beq_eq_false_iff_ne]
          intro hcontra
          exact hne (by rw [hcontra])
        simp [MachineWait.waitLoop, hw, h4]
      | generic msg => simp [MachineWait.waitLoop, hw]
    rw [WaitForStartOrStop_start, hcons]
    cases hl : (MachineWait.waitLoop waits "started" 1 fuel).1 with
    | nil => exact absurd hl hne'
    | cons a as => simp

/-- **C9** (amended, witness): the alloc poll errors on its second iteration
and is propagated after exactly two polls; a 400 flaps error is propagated by
the machine-wait loop after one call; a generic error leads to a second wait
call. -/
theorem c9_amended_error_propagation_witness :
    ((1 : Nat) < pollErrEnv.waitFuel ∧ pollErrEnv.allocPolls 1 = .error "api down" ∧
     waits400 0 = some (.flaps 400) ∧ (0 : Nat) < 3 ∧
     flakyWaits 0 = some (.generic "boom") ∧
     MachineWait.WaitErr.generic "boom" ≠ .flaps 400) ∧
    (waitForAllocsZero pollErrEnv = (List.replicate 2 Ev.getAllocations, some "api down") ∧
     MachineWait.WaitForStartOrStop waits400 "start" 3 =
       (["started"], .error "failed waiting for machine: bad request") ∧
     2 ≤ (MachineWait.WaitForStartOrStop flakyWaits "start" (4 + 1)).1.length) :=
  ⟨⟨by decide, by decide, rfl, by decide, rfl, by decide⟩,
   c9_amended_error_propagation.1 pollErrEnv 1 "api down" (by decide)
     (by
       intro j hj
       have hj0 : j = 0 := by omega
       subst hj0
       exact ⟨5, rfl, by decide⟩)
     (by decide),
   c9_amended_error_propagation.2.1 waits400 3 rfl (by decide),
   c9_amended_error_propagation.2.2 flakyWaits 4 (.generic "boom") rfl (by decide)⟩

/-- **C10**: `WaitForStartOrStop` rejects any action other than "start" or
"stop" before issuing a single wait call; for "start" every wait call waits
on the "started" state, for "stop" on the "stopped" state. -/
theorem c10_action_switch :
    (∀ (waits : Nat → Option MachineWait.WaitErr) (action : String) (fuel : Nat),
        action ≠ "start" → action ≠ "stop" →
        MachineWait.WaitForStartOrStop waits action fuel =
          ([], .error "action must be either start or stop")) ∧
    (∀ (waits : Nat → Option MachineWait.WaitErr) (fuel : Nat),
        ∀ s ∈ (MachineWait.WaitForStartOrStop waits "start" fuel).1, s = "started") ∧
    (∀ (waits : Nat → Option MachineWait.WaitErr) (fuel : Nat),
        ∀ s ∈ (MachineWait.WaitForStartOrStop waits "stop" fuel).1, s = "stopped") := by
  refine ⟨?_, ?_, ?_⟩
  · intro waits action fuel h1 h2
    unfold MachineWait.WaitForStartOrStop
    split
    · exact absurd rfl h1
    · exact absurd rfl h2
    · rfl
  · intro waits fuel s hs
    exact waitLoop_states waits "started" fuel 0 s (by simpa [MachineWait.WaitForStartOrStop] using hs)
  · intro waits fuel s hs
    exact waitLoop_states waits "stopped" fuel 0 s (by simpa [MachineWait.WaitForStartOrStop] using hs)

/-! ## Helper lemmas: step-level facts for `Migrate` -/

theorem launchEvents_length : ∀ (i n : Nat), (launchEvents i n).length = 2 * n
  | _, 0 => rfl
  | i, n + 1 => by simp [launchEvents, launchEvents_length (i + 1) n]; omega

theorem launchEvents_mem : ∀ (i n j : Nat), j < n → Ev.launch (i + j) ∈ launchEvents i n
  | i, n + 1, 0, _ => by simp [launchEvents]
  | i, n + 1, j + 1, hj => by
    have := launchEvents_mem (i + 1) n j (by omega)
    have heq : i + 1 + j = i + (j + 1) := by omega
    rw [heq] at this
    simp [launchEvents, this]

theorem launchEvents_not_rollbackOnly :
    ∀ (i n : Nat), (launchEvents i n).filter Ev.isRollbackOnly = []
  | _, 0 => rfl
  | i, n + 1 => by
    simp [launchEvents, Ev.isRollbackOnly, launchEvents_not_rollbackOnly (i + 1) n]

theorem launchEvents_no_destroy :
    ∀ (i n : Nat), (launchEvents i n).filter Ev.isDestroy = []
  | _, 0 => rfl
  | i, n + 1 => by
    simp [launchEvents, Ev.isDestroy, launchEvents_no_destroy (i + 1) n]

theorem waitForAllocsZeroGo_rollbackOnly (env : Env) :
    ∀ (i fuel : Nat), (waitForAllocsZeroGo env i fuel).1.filter Ev.isRollbackOnly = []
  | _, 0 => rfl
  | i, fuel + 1 => by
    rcases h : env.allocPolls i with e | n
    · simp [waitForAllocsZeroGo, h, Ev.isRollbackOnly]
    · by_cases hn : (n == 0) = true <;>
        simp [waitForAllocsZeroGo, h, hn, Ev.isRollbackOnly,
          waitForAllocsZeroGo_rollbackOnly env (i + 1) fuel]

theorem createMachinesGo_rollbackOnly (env : Env) :
    ∀ (inputs : List LaunchInput) (i : Nat) (acc : List Machine),
      (createMachinesGo env inputs i acc).1.filter Ev.isRollbackOnly = []
  | [], _, _ => rfl
  | inp :: rest, i, acc => by
    rcases h : env.launch i with e | mach
    · simp [createMachinesGo, h, Ev.isRollbackOnly]
    · simp [createMachinesGo, h, Ev.isRollbackOnly,
        createMachinesGo_rollbackOnly env rest (i + 1) (acc ++ [mach])]

theorem lockAppForMigration_flag (env : Env) (m : Migrator) :
    (lockAppForMigration env m).2.1.recovery.onlyPromptToConfigSave =
      m.recovery.onlyPromptToConfigSave := by
  rcases h : env.lockApp with e | lockId <;> simp [lockAppForMigration, h]

theorem lockAppForMigration_rollbackOnly (env : Env) (m : Migrator) :
    (lockAppForMigration env m).1.filter Ev.isRollbackOnly = [] := by
  rcases h : env.lockApp with e | lockId <;>
    simp [lockAppForMigration, h, Ev.isRollbackOnly]

theorem scaleNomadToZero_flag (env : Env) (m : Migrator) :
    (scaleNomadToZero env m).2.1.recovery.onlyPromptToConfigSave =
      m.recovery.onlyPromptToConfigSave := by
  unfold scaleNomadToZero
  rcases hsv : env.setVMCountZero with e1 | u <;>
    by_cases hgc : 0 < m.oldVmCounts.length <;>
    rcases hw : waitForAllocsZero env with ⟨tw, errw⟩ <;>
    cases errw <;>
    simp [hsv, hgc, hw]

theorem scaleNomadToZero_scaled_of_ok (env : Env) (m : Migrator)
    (h : (scaleNomadToZero env m).2.2 = none) :
    (scaleNomadToZero env m).2.1.recovery.scaledToZero = true := by
  unfold scaleNomadToZero at h ⊢
  rcases hsv : env.setVMCountZero with e1 | u <;>
    by_cases hgc : 0 < m.oldVmCounts.length <;>
    rcases hw : waitForAllocsZero env with ⟨tw, errw⟩ <;>
    cases errw <;>
    simp [hsv, hgc, hw] at h ⊢

theorem scaleNomadToZero_rollbackOnly (env : Env) (m : Migrator) :
    (scaleNomadToZero env m).1.filter Ev.isRollbackOnly = [] := by
  unfold scaleNomadToZero waitForAllocsZero
  have hw := waitForAllocsZeroGo_rollbackOnly env 0 env.waitFuel
  rcases hw2 : waitForAllocsZeroGo env 0 env.waitFuel with ⟨tw, errw⟩
  rw [hw2] at hw
  simp only at hw
  rcases hsv : env.setVMCountZero with e1 | u <;>
    by_cases hgc : 0 < m.oldVmCounts.length <;>
    cases errw <;>
    simp [hsv, hgc, hw, hw2, Ev.isRollbackOnly, List.filter_append]

theorem updateAppPlatformVersion_flag (env : Env) (m : Migrator) (p : String) :
    (updateAppPlatformVersion env m p).2.1.recovery.onlyPromptToConfigSave =
      m.recovery.onlyPromptToConfigSave := by
  rcases h : env.setPlatform p with e | u <;> simp [updateAppPlatformVersion, h]

theorem updateAppPlatformVersion_rollbackOnly (env : Env) (m : Migrator) (p : String) :
    (updateAppPlatformVersion env m p).1.filter Ev.isRollbackOnly = [] := by
  rcases h : env.setPlatform p with e | u <;>
    simp [updateAppPlatformVersion, h, Ev.isRollbackOnly]

theorem createRelease_flag (env : Env) (m : Migrator) :
    (createRelease env m).2.1.recovery.onlyPromptToConfigSave =
      m.recovery.onlyPromptToConfigSave := by
  rcases h : env.createRelease with e | r <;> simp [createRelease, h]

theorem createRelease_rollbackOnly (env : Env) (m : Migrator) :
    (createRelease env m).1.filter Ev.isRollbackOnly = [] := by
  rcases h : env.createRelease with e | r <;>
    simp [createRelease, h, Ev.isRollbackOnly]

theorem createMachines_flag (env : Env) (m : Migrator) :
    (createMachines env m).2.1.recovery.onlyPromptToConfigSave =
      m.recovery.onlyPromptToConfigSave := by
  unfold createMachines
  rcases hgo : createMachinesGo env m.newMachinesInput 0 [] with ⟨t, created, err⟩
  cases err <;> simp

theorem createMachines_rollbackOnly (env : Env) (m : Migrator) :
    (createMachines env m).1.filter Ev.isRollbackOnly = [] := by
  unfold createMachines
  have hgo2 := createMachinesGo_rollbackOnly env m.newMachinesInput 0 []
  rcases hgo : createMachinesGo env m.newMachinesInput 0 [] with ⟨t, created, err⟩
  rw [hgo] at hgo2
  simp only at hgo2
  cases err <;> simpa using hgo2

theorem unlockApp_flag (env : Env) (m : Migrator) :
    (unlockApp env m).2.1.recovery.onlyPromptToConfigSave =
      m.recovery.onlyPromptToConfigSave := by
  rcases h : env.unlock with e | u <;> simp [unlockApp, h]

theorem unlockApp_rollbackOnly (env : Env) (m : Migrator) :
    (unlockApp env m).1.filter Ev.isRollbackOnly = [] := by
  rcases h : env.unlock with e | u <;> simp [unlockApp, h, Ev.isRollbackOnly]

theorem deployApp_flag (env : Env) (m : Migrator) :
    (deployApp env m).2.1.recovery.onlyPromptToConfigSave =
      m.recovery.onlyPromptToConfigSave := by
  rcases h : env.newMachineDeployment with e | u <;> simp [deployApp, h]

theorem deployApp_rollbackOnly (env : Env) (m : Migrator) :
    (deployApp env m).1.filter Ev.isRollbackOnly = [] := by
  rcases h : env.newMachineDeployment with e | u <;>
    simp [deployApp, h, Ev.isRollbackOnly]

theorem updateAppPlatformVersion_trace (env : Env) (m : Migrator) (p : String) :
    (updateAppPlatformVersion env m p).1 = [.setPlatform p] := by
  rcases h : env.setPlatform p with e | u <;> simp [updateAppPlatformVersion, h]

/-! ## Stage lemmas for `migrateForward`:
no stage ever issues a rollback-only call, and the only error that can leave
`recovery.onlyPromptToConfigSave` set is a config-write failure (which happens
after the `setPlatform "machines"` call). -/

theorem mfFinish_rollbackOnly (env : Env) (tr : List Ev) (m : Migrator) :
    (mfFinish env tr m).trace.filter Ev.isRollbackOnly = tr.filter Ev.isRollbackOnly := by
  unfold mfFinish
  have hupf := updateAppPlatformVersion_rollbackOnly env m "machines"
  rcases hup : updateAppPlatformVersion env m "machines" with ⟨t, m1, errU⟩
  rw [hup] at hupf
  simp only at hupf
  cases errU with
  | some e1 => simp [List.filter_append, hupf]
  | none =>
    rcases hw : env.writeConfig with e2 | u <;>
      simp [List.filter_append, hupf, Ev.isRollbackOnly]

theorem mfFinish_flagSpec (env : Env) (tr : List Ev) (m : Migrator)
    (hm : m.recovery.onlyPromptToConfigSave = false) (e : MigErr)
    (he : (mfFinish env tr m).err = some e)
    (hflag : (mfFinish env tr m).m.recovery.onlyPromptToConfigSave = true) :
    ∃ msg, e = .failed msg ∧ env.writeConfig = .error msg ∧
      Ev.setPlatform "machines" ∈ (mfFinish env tr m).trace := by
  have hupf := updateAppPlatformVersion_flag env m "machines"
  have hupt := updateAppPlatformVersion_trace env m "machines"
  rcases hup : updateAppPlatformVersion env m "machines" with ⟨t, m1, errU⟩
  rw [hup] at hupf hupt
  simp only at hupf hupt
  simp only [mfFinish, hup] at he hflag ⊢
  cases errU with
  | some e1 =>
    simp only at hflag
    rw [hupf, hm] at hflag
    exact absurd hflag (by simp)
  | none =>
    rcases hw : env.writeConfig with e2 | u
    · simp only [hw] at he ⊢
      refine ⟨e2, (Option.some.inj he).symm, rfl, ?_⟩
      rw [hupt]
      simp
    · simp [hw] at he

theorem mfLateScale_rollbackOnly (env : Env) (ab : Option Nat) (tr : List Ev) (m : Migrator) :
    (mfLateScale env ab tr m).trace.filter Ev.isRollbackOnly = tr.filter Ev.isRollbackOnly := by
  unfold mfLateScale
  by_cases hcan : m.canAvoidDowntime = true
  · have hsf := scaleNomadToZero_rollbackOnly env m
    rcases hs : scaleNomadToZero env m with ⟨t, m1, errS⟩
    rw [hs] at hsf
    simp only at hsf
    simp only [hcan, if_true]
    cases errS with
    | some e => simp [List.filter_append, hsf]
    | none =>
      simp only []
      split
      · simp [List.filter_append, hsf]
      · rw [mfFinish_rollbackOnly, List.filter_append, hsf, List.append_nil]
  · simp only [hcan, if_false]
    exact mfFinish_rollbackOnly env tr m

theorem mfLateScale_flagSpec (env : Env) (ab : Option Nat) (tr : List Ev) (m : Migrator)
    (hm : m.recovery.onlyPromptToConfigSave = false) (e : MigErr)
    (he : (mfLateScale env ab tr m).err = some e)
    (hflag : (mfLateScale env ab tr m).m.recovery.onlyPromptToConfigSave = true) :
    ∃ msg, e = .failed msg ∧ env.writeConfig = .error msg ∧
      Ev.setPlatform "machines" ∈ (mfLateScale env ab tr m).trace := by
  by_cases hcan : m.canAvoidDowntime = true
  · have hsfl := scaleNomadToZero_flag env m
    rcases hs : scaleNomadToZero env m with ⟨t, m1, errS⟩
    rw [hs] at hsfl
    simp only at hsfl
    simp only [mfLateScale, hcan, if_true, hs] at he hflag ⊢
    cases errS with
    | some e1 =>
      simp only at hflag
      rw [hsfl, hm] at hflag
      exact absurd hflag (by simp)
    | none =>
      by_cases hab : isAborted ab (tr ++ t).length = true
      · simp only [hab, if_true] at he hflag
        rw [hsfl, hm] at hflag
        exact absurd hflag (by simp)
      · simp only [hab, if_false] at he hflag ⊢
        exact mfFinish_flagSpec env (tr ++ t) m1 (by rw [hsfl, hm]) e he hflag
  · simp only [mfLateScale, hcan, if_false] at he hflag ⊢
    exact mfFinish_flagSpec env tr m hm e he hflag

theorem mfDeploy_rollbackOnly (env : Env) (ab : Option Nat) (tr : List Ev) (m : Migrator) :
    (mfDeploy env ab tr m).trace.filter Ev.isRollbackOnly = tr.filter Ev.isRollbackOnly := by
  unfold mfDeploy
  have hdf := deployApp_rollbackOnly env m
  rcases hd : deployApp env m with ⟨t, m1, errD⟩
  rw [hd] at hdf
  simp only at hdf
  cases errD with
  | some e => simp [List.filter_append, hdf, Ev.isRollbackOnly]
  | none =>
    simp only []
    split
    · simp [List.filter_append, hdf, Ev.isRollbackOnly]
    · rw [mfLateScale_rollbackOnly]
      simp [List.filter_append, hdf, Ev.isRollbackOnly]

theorem mfDeploy_flagSpec (env : Env) (ab : Option Nat) (tr : List Ev) (m : Migrator)
    (hm : m.recovery.onlyPromptToConfigSave = false) (e : MigErr)
    (he : (mfDeploy env ab tr m).err = some e)
    (hflag : (mfDeploy env ab tr m).m.recovery.onlyPromptToConfigSave = true) :
    ∃ msg, e = .failed msg ∧ env.writeConfig = .error msg ∧
      Ev.setPlatform "machines" ∈ (mfDeploy env ab tr m).trace := by
  have hdfl := deployApp_flag env m
  rcases hd : deployApp env m with ⟨t, m1, errD⟩
  rw [hd] at hdfl
  simp only at hdfl
  simp only [mfDeploy, hd] at he hflag ⊢
  cases errD with
  | some e1 =>
    simp only at hflag
    rw [hdfl, hm] at hflag
    exact absurd hflag (by simp)
  | none =>
    by_cases hab : isAborted ab (tr ++ [Ev.releaseLeases] ++ t).length = true
    · simp only [hab, if_true] at he hflag
      rw [hdfl, hm] at hflag
      exact absurd hflag (by simp)
    · simp only [hab, if_false] at he hflag ⊢
      exact mfLateScale_flagSpec env ab (tr ++ [Ev.releaseLeases] ++ t) m1
        (by rw [hdfl, hm]) e he hflag

theorem mfUnlock_rollbackOnly (env : Env) (ab : Option Nat) (tr : List Ev) (m : Migrator) :
    (mfUnlock env ab tr m).trace.filter Ev.isRollbackOnly = tr.filter Ev.isRollbackOnly := by
  unfold mfUnlock
  have huf := unlockApp_rollbackOnly env m
  rcases hu : unlockApp env m with ⟨t, m1, errU⟩
  rw [hu] at huf
  simp only at huf
  cases errU with
  | some e => simp [List.filter_append, huf]
  | none =>
    simp only []
    split
    · simp [List.filter_append, huf]
    · rw [mfDeploy_rollbackOnly, List.filter_append, huf, List.append_nil]

theorem mfUnlock_flagSpec (env : Env) (ab : Option Nat) (tr : List Ev) (m : Migrator)
    (hm : m.recovery.onlyPromptToConfigSave = false) (e : MigErr)
    (he : (mfUnlock env ab tr m).err = some e)
    (hflag : (mfUnlock env ab tr m).m.recovery.onlyPromptToConfigSave = true) :
    ∃ msg, e = .failed msg ∧ env.writeConfig = .error msg ∧
      Ev.setPlatform "machines" ∈ (mfUnlock env ab tr m).trace := by
  have hufl := unlockApp_flag env m
  rcases hu : unlockApp env m with ⟨t, m1, errU⟩
  rw [hu] at hufl
  simp only at hufl
  simp only [mfUnlock, hu] at he hflag ⊢
  cases errU with
  | some e1 =>
    simp only at hflag
    rw [hufl, hm] at hflag
    exact absurd hflag (by simp)
  | none =>
    by_cases hab : isAborted ab (tr ++ t).length = true
    · simp only [hab, if_true] at he hflag
      rw [hufl, hm] at hflag
      exact absurd hflag (by simp)
    · simp only [hab, if_false] at he hflag ⊢
      exact mfDeploy_flagSpec env ab (tr ++ t) m1 (by rw [hufl, hm]) e he hflag

theorem mfLeases_rollbackOnly (env : Env) (ab : Option Nat) (tr : List Ev) (m : Migrator) :
    (mfLeases env ab tr m).trace.filter Ev.isRollbackOnly = tr.filter Ev.isRollbackOnly := by
  unfold mfLeases
  rcases ha : env.acquireLeases with e | u
  · simp [ha, List.filter_append, Ev.isRollbackOnly]
  · simp only [ha]
    split
    · simp [List.filter_append, Ev.isRollbackOnly]
    · rw [mfUnlock_rollbackOnly]
      simp [List.filter_append, Ev.isRollbackOnly]

theorem mfLeases_flagSpec (env : Env) (ab : Option Nat) (tr : List Ev) (m : Migrator)
    (hm : m.recovery.onlyPromptToConfigSave = false) (e : MigErr)
    (he : (mfLeases env ab tr m).err = some e)
    (hflag : (mfLeases env ab tr m).m.recovery.onlyPromptToConfigSave = true) :
    ∃ msg, e = .failed msg ∧ env.writeConfig = .error msg ∧
      Ev.setPlatform "machines" ∈ (mfLeases env ab tr m).trace := by
  simp only [mfLeases] at he hflag ⊢
  rcases ha : env.acquireLeases with e1 | u
  · simp only [ha] at he hflag
    rw [hm] at hflag
    exact absurd hflag (by simp)
  · simp only [ha] at he hflag ⊢
    by_cases hab : isAborted ab (tr ++ [Ev.acquireLeases]).length = true
    · simp only [hab, if_true] at he hflag
      rw [hm] at hflag
      exact absurd hflag (by simp)
    · simp only [hab, if_false] at he hflag ⊢
      exact mfUnlock_flagSpec env ab (tr ++ [Ev.acquireLeases]) m hm e he hflag

theorem mfCreate_rollbackOnly (env : Env) (ab : Option Nat) (tr : List Ev) (m : Migrator) :
    (mfCreate env ab tr m).trace.filter Ev.isRollbackOnly = tr.filter Ev.isRollbackOnly := by
  unfold mfCreate
  have hcf := createMachines_rollbackOnly env m
  rcases hc : createMachines env m with ⟨t, m1, errC⟩
  rw [hc] at hcf
  simp only at hcf
  cases errC with
  | some e => simp [List.filter_append, hcf]
  | none =>
    simp only []
    split
    · simp [List.filter_append, hcf]
    · rw [mfLeases_rollbackOnly, List.filter_append, hcf, List.append_nil]

theorem mfCreate_flagSpec (env : Env) (ab : Option Nat) (tr : List Ev) (m : Migrator)
    (hm : m.recovery.onlyPromptToConfigSave = false) (e : MigErr)
    (he : (mfCreate env ab tr m).err = some e)
    (hflag : (mfCreate env ab tr m).m.recovery.onlyPromptToConfigSave = true) :
    ∃ msg, e = .failed msg ∧ env.writeConfig = .error msg ∧
      Ev.setPlatform "machines" ∈ (mfCreate env ab tr m).trace := by
  have hcfl := createMachines_flag env m
  rcases hc : createMachines env m with ⟨t, m1, errC⟩
  rw [hc] at hcfl
  simp only at hcfl
  simp only [mfCreate, hc] at he hflag ⊢
  cases errC with
  | some e1 =>
    simp only at hflag
    rw [hcfl, hm] at hflag
    exact absurd hflag (by simp)
  | none =>
    by_cases hab : isAborted ab (tr ++ t).length = true
    · simp only [hab, if_true] at he hflag
      rw [hcfl, hm] at hflag
      exact absurd hflag (by simp)
    · simp only [hab, if_false] at he hflag ⊢
      exact mfLeases_flagSpec env ab (tr ++ t) m1 (by rw [hcfl, hm]) e he hflag

theorem mfRelease_rollbackOnly (env : Env) (ab : Option Nat) (tr : List Ev) (m : Migrator) :
    (mfRelease env ab tr m).trace.filter Ev.isRollbackOnly = tr.filter Ev.isRollbackOnly := by
  unfold mfRelease
  have hrf := createRelease_rollbackOnly env m
  rcases hr : createRelease env m with ⟨t, m1, errR⟩
  rw [hr] at hrf
  simp only at hrf
  cases errR with
  | some e => simp [List.filter_append, hrf]
  | none =>
    simp only []
    split
    · simp [List.filter_append, hrf]
    · rw [mfCreate_rollbackOnly, List.filter_append, hrf, List.append_nil]

theorem mfRelease_flagSpec (env : Env) (ab : Option Nat) (tr : List Ev) (m : Migrator)
    (hm : m.recovery.onlyPromptToConfigSave = false) (e : MigErr)
    (he : (mfRelease env ab tr m).err = some e)
    (hflag : (mfRelease env ab tr m).m.recovery.onlyPromptToConfigSave = true) :
    ∃ msg, e = .failed msg ∧ env.writeConfig = .error msg ∧
      Ev.setPlatform "machines" ∈ (mfRelease env ab tr m).trace := by
  have hrfl := createRelease_flag env m
  rcases hr : createRelease env m with ⟨t, m1, errR⟩
  rw [hr] at hrfl
  simp only at hrfl
  simp only [mfRelease, hr] at he hflag ⊢
  cases errR with
  | some e1 =>
    simp only at hflag
    rw [hrfl, hm] at hflag
    exact absurd hflag (by simp)
  | none =>
    by_cases hab : isAborted ab (tr ++ t).length = true
    · simp only [hab, if_true] at he hflag
      rw [hrfl, hm] at hflag
      exact absurd hflag (by simp)
    · simp only [hab, if_false] at he hflag ⊢
      exact mfCreate_flagSpec env ab (tr ++ t) m1 (by rw [hrfl, hm]) e he hflag

theorem mfDetach_rollbackOnly (env : Env) (ab : Option Nat) (tr : List Ev) (m : Migrator) :
    (mfDetach env ab tr m).trace.filter Ev.isRollbackOnly = tr.filter Ev.isRollbackOnly := by
  unfold mfDetach
  have hdf := updateAppPlatformVersion_rollbackOnly env m "detached"
  rcases hd : updateAppPlatformVersion env m "detached" with ⟨t, m1, errD⟩
  rw [hd] at hdf
  simp only at hdf
  cases errD with
  | some e => simp [List.filter_append, hdf]
  | none =>
    simp only []
    split
    · simp [List.filter_append, hdf]
    · rw [mfRelease_rollbackOnly, List.filter_append, hdf, List.append_nil]

theorem mfDetach_flagSpec (env : Env) (ab : Option Nat) (tr : List Ev) (m : Migrator)
    (hm : m.recovery.onlyPromptToConfigSave = false) (e : MigErr)
    (he : (mfDetach env ab tr m).err = some e)
    (hflag : (mfDetach env ab tr m).m.recovery.onlyPromptToConfigSave = true) :
    ∃ msg, e = .failed msg ∧ env.writeConfig = .error msg ∧
      Ev.setPlatform "machines" ∈ (mfDetach env ab tr m).trace := by
  have hdfl := updateAppPlatformVersion_flag env m "detached"
  rcases hd : updateAppPlatformVersion env m "detached" with ⟨t, m1, errD⟩
  rw [hd] at hdfl
  simp only at hdfl
  simp only [mfDetach, hd] at he hflag ⊢
  cases errD with
  | some e1 =>
    simp only at hflag
    rw [hdfl, hm] at hflag
    exact absurd hflag (by simp)
  | none =>
    by_cases hab : isAborted ab (tr ++ t).length = true
    · simp only [hab, if_true] at he hflag
      rw [hdfl, hm] at hflag
      exact absurd hflag (by simp)
    · simp only [hab, if_false] at he hflag ⊢
      exact mfRelease_flagSpec env ab (tr ++ t) m1 (by rw [hdfl, hm]) e he hflag

theorem mfEarlyScale_rollbackOnly (env : Env) (ab : Option Nat) (tr : List Ev) (m : Migrator) :
    (mfEarlyScale env ab tr m).trace.filter Ev.isRollbackOnly = tr.filter Ev.isRollbackOnly := by
  unfold mfEarlyScale
  by_cases hcan : m.canAvoidDowntime = true
  · simp only [hcan]
    simp only [Bool.not_true, Bool.false_eq_true, if_false]
    split
    · rfl
    · exact mfDetach_rollbackOnly env ab tr m
  · have hcan' : m.canAvoidDowntime = false := by
      cases h : m.canAvoidDowntime
      · rfl
      · exact absurd h hcan
    simp only [hcan', Bool.not_false, if_true]
    have hsf := scaleNomadToZero_rollbackOnly env m
    rcases hs : scaleNomadToZero env m with ⟨t, m1, errS⟩
    rw [hs] at hsf
    simp only at hsf
    cases errS with
    | some e => simp [List.filter_append, hsf]
    | none =>
      simp only []
      split
      · simp [List.filter_append, hsf]
      · rw [mfDetach_rollbackOnly, List.filter_append, hsf, List.append_nil]

theorem mfEarlyScale_flagSpec (env : Env) (ab : Option Nat) (tr : List Ev) (m : Migrator)
    (hm : m.recovery.onlyPromptToConfigSave = false) (e : MigErr)
    (he : (mfEarlyScale env ab tr m).err = some e)
    (hflag : (mfEarlyScale env ab tr m).m.recovery.onlyPromptToConfigSave = true) :
    ∃ msg, e = .failed msg ∧ env.writeConfig = .error msg ∧
      Ev.setPlatform "machines" ∈ (mfEarlyScale env ab tr m).trace := by
  by_cases hcan : m.canAvoidDowntime = true
  · simp only [mfEarlyScale, hcan, Bool.not_true, Bool.false_eq_true, if_false] at he hflag ⊢
    by_cases hab : isAborted ab tr.length = true
    · simp only [hab, if_true] at he hflag
      rw [hm] at hflag
      exact absurd hflag (by simp)
    · simp only [hab, if_false] at he hflag ⊢
      exact mfDetach_flagSpec env ab tr m hm e he hflag
  · have hcan' : m.canAvoidDowntime = false := by
      cases h : m.canAvoidDowntime
      · rfl
      · exact absurd h hcan
    have hsfl := scaleNomadToZero_flag env m
    rcases hs : scaleNomadToZero env m with ⟨t, m1, errS⟩
    rw [hs] at hsfl
    simp only at hsfl
    simp only [mfEarlyScale, hcan', Bool.not_false, if_true, hs] at he hflag ⊢
    cases errS with
    | some e1 =>
      simp only at hflag
      rw [hsfl, hm] at hflag
      exact absurd hflag (by simp)
    | none =>
      by_cases hab : isAborted ab (tr ++ t).length = true
      · simp only [hab, if_true] at he hflag
        rw [hsfl, hm] at hflag
        exact absurd hflag (by simp)
      · simp only [hab, if_false] at he hflag ⊢
        exact mfDetach_flagSpec env ab (tr ++ t) m1 (by rw [hsfl, hm]) e he hflag

theorem mfStart_rollbackOnly (env : Env) (ab : Option Nat) (m : Migrator) :
    (mfStart env ab m).trace.filter Ev.isRollbackOnly = [] := by
  unfold mfStart
  have hlf := lockAppForMigration_rollbackOnly env m
  rcases hl : lockAppForMigration env m with ⟨t, m1, errL⟩
  rw [hl] at hlf
  simp only at hlf
  cases errL with
  | some e => simpa using hlf
  | none =>
    simp only []
    split
    · simpa using hlf
    · rw [mfEarlyScale_rollbackOnly]
      simpa using hlf

/-- The forward phase of `Migrate` never issues a rollback-only remote call
(no destroy, no resume). -/
theorem migrateForward_rollbackOnly (env : Env) (ab : Option Nat) (m0 : Migrator) :
    (migrateForward env ab m0).trace.filter Ev.isRollbackOnly = [] := by
  unfold migrateForward
  exact mfStart_rollbackOnly env ab _

theorem mfStart_flagSpec (env : Env) (ab : Option Nat) (m : Migrator)
    (hm : m.recovery.onlyPromptToConfigSave = false) (e : MigErr)
    (he : (mfStart env ab m).err = some e)
    (hflag : (mfStart env ab m).m.recovery.onlyPromptToConfigSave = true) :
    ∃ msg, e = .failed msg ∧ env.writeConfig = .error msg ∧
      Ev.setPlatform "machines" ∈ (mfStart env ab m).trace := by
  have hlfl := lockAppForMigration_flag env m
  rcases hl : lockAppForMigration env m with ⟨t, m1, errL⟩
  rw [hl] at hlfl
  simp only at hlfl
  have hm1 : m1.recovery.onlyPromptToConfigSave = false := by rw [hlfl]; exact hm
  simp only [mfStart, hl] at he hflag ⊢
  cases errL with
  | some e1 =>
    simp only at hflag
    rw [hm1] at hflag
    exact absurd hflag (by simp)
  | none =>
    by_cases hab : isAborted ab t.length = true
    · simp only [hab, if_true] at he hflag
      rw [hm1] at hflag
      exact absurd hflag (by simp)
    · simp only [hab, if_false] at he hflag ⊢
      exact mfEarlyScale_flagSpec env ab t m1 hm1 e he hflag

/-- If the forward phase fails with the `onlyPromptToConfigSave` flag set
(starting from a migrator with the flag clear), the error is the config-write
error and the platform had already been switched to "machines". -/
theorem migrateForward_flagSpec (env : Env) (ab : Option Nat) (m0 : Migrator)
    (hm : m0.recovery.onlyPromptToConfigSave = false) (e : MigErr)
    (he : (migrateForward env ab m0).err = some e)
    (hflag : (migrateForward env ab m0).m.recovery.onlyPromptToConfigSave = true) :
    ∃ msg, e = .failed msg ∧ env.writeConfig = .error msg ∧
      Ev.setPlatform "machines" ∈ (migrateForward env ab m0).trace := by
  unfold migrateForward at he hflag ⊢
  exact mfStart_flagSpec env ab _ (by simpa using hm) e he hflag

/-- **C5**: in every failing run started with the point-of-no-return flag
clear, either (a) the config-persist step had begun: the flag is set, the
failure is reported as a manual follow-up ("please run fly config save"),
rollback is NOT invoked, no compensating (destroy/resume) call appears in the
trace, the error is exactly the config-write error, and the platform had
already been switched to "machines"; or (b) the flag is still clear and
rollback IS invoked. -/
theorem c5_point_of_no_return (env : Env) (ab : Option Nat) (m0 : Migrator) (e : MigErr)
    (h0 : m0.recovery.onlyPromptToConfigSave = false)
    (herr : (Migrate env ab m0).err = some e) :
    ((Migrate env ab m0).m.recovery.onlyPromptToConfigSave = true ∧
     (Migrate env ab m0).manualFollowUp = true ∧
     (Migrate env ab m0).rolledBack = false ∧
     (∃ msg, e = .failed msg ∧ env.writeConfig = .error msg) ∧
     Ev.setPlatform "machines" ∈ (Migrate env ab m0).trace ∧
     (Migrate env ab m0).trace.filter Ev.isRollbackOnly = []) ∨
    ((Migrate env ab m0).m.recovery.onlyPromptToConfigSave = false ∧
     (Migrate env ab m0).manualFollowUp = false ∧
     (Migrate env ab m0).rolledBack = true) := by
  have hro := migrateForward_rollbackOnly env ab m0
  have hspec := migrateForward_flagSpec env ab m0 h0
  rcases hf : migrateForward env ab m0 with ⟨ft, fm, ferr, fdef⟩
  rw [hf] at hro hspec
  simp only at hro hspec
  simp only [Migrate, hf] at herr ⊢
  cases ferr with
  | none => simp at herr
  | some e1 =>
    by_cases hfl : fm.recovery.onlyPromptToConfigSave = true
    · left
      simp only [hfl, if_true] at herr ⊢
      have hee : e1 = e := by simpa using herr
      obtain ⟨msg, hmsg, hw, hmem⟩ := hspec e (by rw [hee]) hfl
      refine ⟨by trivial, by trivial, by trivial, ⟨msg, hmsg, hw⟩, ?_, ?_⟩
      · exact List.mem_append_left _ hmem
      · cases fdef <;> simp [List.filter_append, hro, Ev.isRollbackOnly]
    · right
      have hfl' : fm.recovery.onlyPromptToConfigSave = false := by
        cases h : fm.recovery.onlyPromptToConfigSave
        · rfl
        · exact absurd h hfl
      have hrf := rollback_flag env fm
      rcases hr : rollback env fm with ⟨rt, rm, rerr⟩
      rw [hr] at hrf
      simp only at hrf
      simp only [hfl', Bool.false_eq_true, if_false, hr] at herr ⊢
      refine ⟨?_, by trivial, by trivial⟩
      rw [hrf, hfl']

/-- **C5** (witness): with only the local config write failing, Migrate ends
in the manual-follow-up state: flag set, no rollback, the write error
surfaced, platform already switched, and no compensating call in the trace. -/
theorem c5_point_of_no_return_witness :
    (baseMigrator.recovery.onlyPromptToConfigSave = false ∧
     (Migrate writeFailEnv none baseMigrator).err = some (.failed "disk full")) ∧
    (((Migrate writeFailEnv none baseMigrator).m.recovery.onlyPromptToConfigSave = true ∧
      (Migrate writeFailEnv none baseMigrator).manualFollowUp = true ∧
      (Migrate writeFailEnv none baseMigrator).rolledBack = false ∧
      (∃ msg, MigErr.failed "disk full" = .failed msg ∧
        writeFailEnv.writeConfig = .error msg) ∧
      Ev.setPlatform "machines" ∈ (Migrate writeFailEnv none baseMigrator).trace ∧
      (Migrate writeFailEnv none baseMigrator).trace.filter Ev.isRollbackOnly = []) ∨
     ((Migrate writeFailEnv none baseMigrator).m.recovery.onlyPromptToConfigSave = false ∧
      (Migrate writeFailEnv none baseMigrator).manualFollowUp = false ∧
      (Migrate writeFailEnv none baseMigrator).rolledBack = true)) :=
  ⟨⟨by decide, by decide⟩,
   c5_point_of_no_return writeFailEnv none baseMigrator (.failed "disk full")
     (by decide) (by decide)⟩

/-! ## Symbolic evaluation of the forward steps on the success path -/

theorem createMachines_all_ok (env : Env) (m : Migrator) (machs : Nat → Machine)
    (h : ∀ j, j < m.newMachinesInput.length → env.launch j = .ok (machs j)) :
    createMachines env m =
      (launchEvents 0 m.newMachinesInput.length,
       { m with newMachines := machsFrom machs 0 m.newMachinesInput.length
                recovery := { m.recovery with
                  machinesCreated := machsFrom machs 0 m.newMachinesInput.length } },
       none) := by
  unfold createMachines
  rw [createMachinesGo_all_ok env machs m.newMachinesInput 0 []
    (by intro j hj; simpa using h j hj)]
  simp

theorem scaleNomadToZero_all_ok (env : Env) (m : Migrator)
    (hsv : env.setVMCountZero = .ok ()) (hvm : 0 < m.oldVmCounts.length)
    (hpoll : env.allocPolls 0 = .ok 0) (hfuel : 0 < env.waitFuel) :
    scaleNomadToZero env m =
      ([Ev.setVMCount (m.oldVmCounts.map (fun g => (g.1, 0))), Ev.getAllocations],
       { m with recovery := { m.recovery with scaledToZero := true } },
       none) := by
  have hw : waitForAllocsZero env = ([Ev.getAllocations], none) := by
    rcases hfu : env.waitFuel with _ | f
    · rw [hfu] at hfuel; omega
    · unfold waitForAllocsZero
      rw [hfu]
      simp [waitForAllocsZeroGo, hpoll]
  unfold scaleNomadToZero
  simp [hsv, hvm, hw]

theorem mfStart_step (env : Env) (ab : Option Nat) (m : Migrator) (lockId : String)
    (hlock : env.lockApp = .ok lockId)
    (hab : isAborted ab 1 = false) :
    mfStart env ab m = mfEarlyScale env ab [Ev.lockApp]
      { m with appLock := lockId
               recovery := { m.recovery with appLocked := true } } := by
  simp [mfStart, lockAppForMigration, hlock, hab]

theorem mfEarlyScale_step (env : Env) (ab : Option Nat) (tr : List Ev) (m : Migrator)
    (hcan : m.canAvoidDowntime = true)
    (hab : isAborted ab tr.length = false) :
    mfEarlyScale env ab tr m = mfDetach env ab tr m := by
  simp [mfEarlyScale, hcan, hab]

theorem mfDetach_step (env : Env) (ab : Option Nat) (tr : List Ev) (m : Migrator)
    (hplat : env.setPlatform "detached" = .ok ())
    (hab : isAborted ab (tr.length + 1) = false) :
    mfDetach env ab tr m = mfRelease env ab (tr ++ [Ev.setPlatform "detached"])
      { m with recovery := { m.recovery with platformVersion := "detached" } } := by
  simp [mfDetach, updateAppPlatformVersion, hplat, hab]

theorem mfRelease_step (env : Env) (ab : Option Nat) (tr : List Ev) (m : Migrator)
    (rel : String × Nat) (hrel : env.createRelease = .ok rel)
    (hab : isAborted ab (tr.length + 1) = false) :
    mfRelease env ab tr m = mfCreate env ab (tr ++ [Ev.createRelease])
      { m with releaseId := rel.1, releaseVersion := rel.2 } := by
  simp [mfRelease, createRelease, hrel, hab]

theorem mfCreate_step (env : Env) (ab : Option Nat) (tr : List Ev) (m : Migrator)
    (machs : Nat → Machine)
    (hlaunch : ∀ j, j < m.newMachinesInput.length → env.launch j = .ok (machs j))
    (hab : isAborted ab (tr.length + 2 * m.newMachinesInput.length) = false) :
    mfCreate env ab tr m = mfLeases env ab (tr ++ launchEvents 0 m.newMachinesInput.length)
      { m with newMachines := machsFrom machs 0 m.newMachinesInput.length
               recovery := { m.recovery with
                 machinesCreated := machsFrom machs 0 m.newMachinesInput.length } } := by
  have hcm := createMachines_all_ok env m machs hlaunch
  simp [mfCreate, hcm, hab, launchEvents_length]

/-- The abort checkpoint right after `createMachines`: the step runs to
completion (all launches issued) and only then is the abort observed. -/
theorem mfCreate_abort (env : Env) (ab : Option Nat) (tr : List Ev) (m : Migrator)
    (machs : Nat → Machine)
    (hlaunch : ∀ j, j < m.newMachinesInput.length → env.launch j = .ok (machs j))
    (hab : isAborted ab (tr.length + 2 * m.newMachinesInput.length) = true) :
    mfCreate env ab tr m =
      ⟨tr ++ launchEvents 0 m.newMachinesInput.length,
       { m with newMachines := machsFrom machs 0 m.newMachinesInput.length
                recovery := { m.recovery with
                  machinesCreated := machsFrom machs 0 m.newMachinesInput.length } },
       some .aborted, false⟩ := by
  have hcm := createMachines_all_ok env m machs hlaunch
  simp [mfCreate, hcm, hab, launchEvents_length]

theorem mfLeases_step (env : Env) (ab : Option Nat) (tr : List Ev) (m : Migrator)
    (hacq : env.acquireLeases = .ok ())
    (hab : isAborted ab (tr.length + 1) = false) :
    mfLeases env ab tr m = mfUnlock env ab (tr ++ [Ev.acquireLeases]) m := by
  simp [mfLeases, hacq, hab]

theorem mfUnlock_step (env : Env) (ab : Option Nat) (tr : List Ev) (m : Migrator)
    (hunlock : env.unlock = .ok ())
    (hab : isAborted ab (tr.length + 1) = false) :
    mfUnlock env ab tr m = mfDeploy env ab (tr ++ [Ev.unlockApp])
      { m with recovery := { m.recovery with appLocked := false } } := by
  simp [mfUnlock, unlockApp, hunlock, hab]

theorem mfDeploy_step (env : Env) (ab : Option Nat) (tr : List Ev) (m : Migrator)
    (hdep : env.newMachineDeployment = .ok ())
    (hab : isAborted ab (tr.length + 3) = false) :
    mfDeploy env ab tr m = mfLateScale env ab
      (tr ++ [Ev.releaseLeases, Ev.newMachineDeployment, Ev.deployMachinesApp]) m := by
  simp [mfDeploy, deployApp, hdep, hab]

theorem mfLateScale_step (env : Env) (ab : Option Nat) (tr : List Ev) (m : Migrator)
    (hcan : m.canAvoidDowntime = true)
    (hsv : env.setVMCountZero = .ok ()) (hvm : 0 < m.oldVmCounts.length)
    (hpoll : env.allocPolls 0 = .ok 0) (hfuel : 0 < env.waitFuel)
    (hab : isAborted ab (tr.length + 2) = false) :
    mfLateScale env ab tr m = mfFinish env
      (tr ++ [Ev.setVMCount (m.oldVmCounts.map (fun g => (g.1, 0))), Ev.getAllocations])
      { m with recovery := { m.recovery with scaledToZero := true } } := by
  have hs := scaleNomadToZero_all_ok env m hsv hvm hpoll hfuel
  simp [mfLateScale, hcan, hs, hab]

theorem mfFinish_eval (env : Env) (tr : List Ev) (m : Migrator)
    (hplat : env.setPlatform "machines" = .ok ())
    (hwrite : env.writeConfig = .ok ()) :
    mfFinish env tr m =
      ⟨tr ++ [Ev.setPlatform "machines", Ev.writeConfig],
       { m with recovery := { m.recovery with platformVersion := "machines"
                                              onlyPromptToConfigSave := true } },
       none, true⟩ := by
  simp [mfFinish, updateAppPlatformVersion, hplat, hwrite]

theorem isAborted_some_false (t n : Nat) (h : n < t) : isAborted (some t) n = false := by
  simp only [isAborted, decide_eq_false_iff_not]
  omega

theorem isAborted_some_true (t n : Nat) (h : t ≤ n) : isAborted (some t) n = true := by
  simp [isAborted, h]

/-- **C4** (amended): in a fully successful run, the machines' leases are
acquired before the app is unlocked; immediately after the unlock the leases
are explicitly released (result discarded) and only then is the cutover
deployment constructed and run — deploy re-acquires its own leases — and the
deferred release fires once more when `Migrate` returns.  The complete remote
trace, in order, is: lock, platform:=detached, createRelease, the launches,
acquireLeases, unlock, releaseLeases, the cutover, scale-to-zero and its
drain poll, platform:=machines, the config write, and the deferred
releaseLeases. -/
theorem c4_amended_happy_path (env : Env) (m0 : Migrator) (machs : Nat → Machine)
    (lockId : String) (rel : String × Nat)
    (hcan : m0.canAvoidDowntime = true)
    (hlock : env.lockApp = .ok lockId)
    (hplatD : env.setPlatform "detached" = .ok ())
    (hplatM : env.setPlatform "machines" = .ok ())
    (hrel : env.createRelease = .ok rel)
    (hlaunch : ∀ j, j < m0.newMachinesInput.length → env.launch j = .ok (machs j))
    (hacq : env.acquireLeases = .ok ())
    (hunlock : env.unlock = .ok ())
    (hdep : env.newMachineDeployment = .ok ())
    (hsv : env.setVMCountZero = .ok ())
    (hvm : 0 < m0.oldVmCounts.length)
    (hpoll : env.allocPolls 0 = .ok 0)
    (hfuel : 0 < env.waitFuel)
    (hwrite : env.writeConfig = .ok ()) :
    (Migrate env none m0).err = none ∧
    (Migrate env none m0).trace =
      [Ev.lockApp, Ev.setPlatform "detached", Ev.createRelease] ++
      launchEvents 0 m0.newMachinesInput.length ++
      [Ev.acquireLeases, Ev.unlockApp, Ev.releaseLeases, Ev.newMachineDeployment,
       Ev.deployMachinesApp,
       Ev.setVMCount (m0.oldVmCounts.map (fun g => (g.1, 0))), Ev.getAllocations,
       Ev.setPlatform "machines", Ev.writeConfig, Ev.releaseLeases] := by
  have hfwd : (migrateForward env none m0).err = none ∧
      (migrateForward env none m0).leasesDefer = true ∧
      (migrateForward env none m0).trace =
        [Ev.lockApp, Ev.setPlatform "detached", Ev.createRelease] ++
        launchEvents 0 m0.newMachinesInput.length ++
        [Ev.acquireLeases, Ev.unlockApp, Ev.releaseLeases, Ev.newMachineDeployment,
         Ev.deployMachinesApp,
         Ev.setVMCount (m0.oldVmCounts.map (fun g => (g.1, 0))), Ev.getAllocations,
         Ev.setPlatform "machines", Ev.writeConfig] := by
    unfold migrateForward
    rw [mfStart_step env none _ lockId hlock rfl]
    rw [mfEarlyScale_step env none _ _ (by simpa using hcan) rfl]
    rw [mfDetach_step env none _ _ hplatD rfl]
    rw [mfRelease_step env none _ _ rel hrel rfl]
    rw [mfCreate_step env none _ _ machs
      (by intro j hj; refine hlaunch j ?_; simpa using hj) rfl]
    rw [mfLeases_step env none _ _ hacq rfl]
    rw [mfUnlock_step env none _ _ hunlock rfl]
    rw [mfDeploy_step env none _ _ hdep rfl]
    rw [mfLateScale_step env none _ _ (by simpa using hcan) hsv (by simpa using hvm)
      hpoll hfuel rfl]
    rw [mfFinish_eval env _ _ hplatM hwrite]
    refine ⟨rfl, rfl, ?_⟩
    simp
  obtain ⟨he, hd, ht⟩ := hfwd
  rcases hmf : migrateForward env none m0 with ⟨ft, fm, ferr, fdef⟩
  rw [hmf] at he hd ht
  simp only at he hd ht
  subst he
  subst hd
  constructor
  · simp [Migrate, hmf]
  · simp [Migrate, hmf, ht]

/-- **C4** (amended, witness): the specification's 3-instance scenario with
every remote call succeeding. -/
theorem c4_amended_happy_path_witness :
    (baseMigrator.canAvoidDowntime = true ∧ okEnv.lockApp = .ok "lock1" ∧
     okEnv.writeConfig = .ok ()) ∧
    ((Migrate okEnv none baseMigrator).err = none ∧
     (Migrate okEnv none baseMigrator).trace =
       [Ev.lockApp, Ev.setPlatform "detached", Ev.createRelease] ++
       launchEvents 0 baseMigrator.newMachinesInput.length ++
       [Ev.acquireLeases, Ev.unlockApp, Ev.releaseLeases, Ev.newMachineDeployment,
        Ev.deployMachinesApp,
        Ev.setVMCount (baseMigrator.oldVmCounts.map (fun g => (g.1, 0))),
        Ev.getAllocations, Ev.setPlatform "machines", Ev.writeConfig,
        Ev.releaseLeases]) :=
  ⟨⟨rfl, rfl, rfl⟩,
   c4_amended_happy_path okEnv baseMigrator okMachs "lock1" ("rel1", 7) rfl rfl rfl rfl rfl
     (fun _ _ => rfl) rfl rfl rfl rfl (by decide) rfl (by decide) rfl⟩

/-- **C8**: with the abort flag raised strictly after the createRelease
checkpoint and by the post-createMachines checkpoint (in particular anywhere
between the resource-creation step and the lease-acquisition step, or even
mid-creation), the creation step still completes all launches, `Migrate`
returns the abort error at the checkpoint, rollback runs and issues a destroy
for every created machine, the app is unlocked, and the resume call is made. -/
theorem c8_abort_between_create_and_leases (env : Env) (m0 : Migrator)
    (machs : Nat → Machine) (lockId : String) (rel : String × Nat) (t : Nat)
    (hcan : m0.canAvoidDowntime = true)
    (h0 : m0.recovery.onlyPromptToConfigSave = false)
    (hlock : env.lockApp = .ok lockId)
    (hplatD : env.setPlatform "detached" = .ok ())
    (hrel : env.createRelease = .ok rel)
    (hlaunch : ∀ j, j < m0.newMachinesInput.length → env.launch j = .ok (machs j))
    (hdestroy : ∀ j, j < m0.newMachinesInput.length → env.destroy (machs j).id = .ok ())
    (hunlock : env.unlock = .ok ())
    (ht1 : 3 < t) (ht2 : t ≤ 3 + 2 * m0.newMachinesInput.length) :
    (Migrate env (some t) m0).err = some .aborted ∧
    (Migrate env (some t) m0).rolledBack = true ∧
    (∀ j, j < m0.newMachinesInput.length →
      Ev.launch j ∈ (Migrate env (some t) m0).trace) ∧
    (Migrate env (some t) m0).trace.filter Ev.isDestroy =
      (machsFrom machs 0 m0.newMachinesInput.length).map
        (fun mach => Ev.destroy mach.id) ∧
    (Migrate env (some t) m0).m.recovery.appLocked = false ∧
    Ev.resumeApp ∈ (Migrate env (some t) m0).trace := by
  have key : (migrateForward env (some t) m0).err = some .aborted ∧
      (migrateForward env (some t) m0).leasesDefer = false ∧
      (migrateForward env (some t) m0).trace =
        [Ev.lockApp, Ev.setPlatform "detached", Ev.createRelease] ++
          launchEvents 0 m0.newMachinesInput.length ∧
      (migrateForward env (some t) m0).m.recovery.machinesCreated =
        machsFrom machs 0 m0.newMachinesInput.length ∧
      (migrateForward env (some t) m0).m.recovery.onlyPromptToConfigSave = false := by
    unfold migrateForward
    rw [mfStart_step env (some t) _ lockId hlock (isAborted_some_false t 1 (by omega))]
    rw [mfEarlyScale_step env (some t) _ _ (by simpa using hcan)
      (isAborted_some_false t _ (by simp; omega))]
    rw [mfDetach_step env (some t) _ _ hplatD
      (isAborted_some_false t _ (by simp; omega))]
    rw [mfRelease_step env (some t) _ _ rel hrel
      (isAborted_some_false t _ (by simp; omega))]
    rw [mfCreate_abort env (some t) _ _ machs
      (by intro j hj; refine hlaunch j ?_; simpa using hj)
      (isAborted_some_true t _ (by simp; omega))]
    refine ⟨rfl, rfl, by simp, by simp, by simpa using h0⟩
  obtain ⟨kerr, kdef, ktr, kmc, kfl⟩ := key
  rcases hmf : migrateForward env (some t) m0 with ⟨ft, fm, ferr, fdef⟩
  rw [hmf] at kerr kdef ktr kmc kfl
  simp only at kerr kdef ktr kmc kfl
  subst kerr
  subst kdef
  have hall : ∀ mach ∈ machsFrom machs 0 m0.newMachinesInput.length,
      env.destroy mach.id = .ok () := by
    intro mach hm
    obtain ⟨j, hj, hmeq⟩ := machsFrom_mem machs 0 _ mach hm
    rw [hmeq]
    simpa using hdestroy j hj
  have hdfil := rollback_destroy_filter env fm
  have hfinm := rollback_final_m env fm
  have htr := rollback_trace env fm
  rcases hrb : rollback env fm with ⟨rt, rm, rerr⟩
  rw [hrb] at hdfil hfinm htr
  simp only at hdfil hfinm htr
  rw [kmc, destroyLoop_all_ok env _ hall] at hdfil
  simp only at hdfil
  refine ⟨?_, ?_, ?_, ?_, ?_, ?_⟩
  · simp [Migrate, hmf, kfl, hrb]
  · simp [Migrate, hmf, kfl, hrb]
  · intro j hj
    have hmem : Ev.launch j ∈ launchEvents 0 m0.newMachinesInput.length := by
      simpa using launchEvents_mem 0 m0.newMachinesInput.length j hj
    simp [Migrate, hmf, kfl, hrb, ktr, hmem]
  · have hftfil : ft.filter Ev.isDestroy = [] := by
      rw [ktr, List.filter_append, launchEvents_no_destroy]
      simp [Ev.isDestroy]
    simp [Migrate, hmf, kfl, hrb, List.filter_append, hftfil, hdfil]
  · have hu := rollbackDefer_unlocks env (rollbackBody env fm).2.1 hunlock
    rw [← hfinm] at hu
    simp [Migrate, hmf, kfl, hrb, hu]
  · have hres : Ev.resumeApp ∈ rt := by
      rw [htr]
      exact List.mem_append_right _ (rollbackDefer_resume env _)
    simp [Migrate, hmf, kfl, hrb, hres]

/-- **C8** (witness): three machines, abort raised while the third creation
call is in flight (t = 8 remote calls): all three launches complete, the run
aborts at the checkpoint, rollback destroys machines 100, 101, 102, the app
is unlocked and resumed. -/
theorem c8_abort_between_create_and_leases_witness :
    ((3 : Nat) < 8 ∧ 8 ≤ 3 + 2 * baseMigrator.newMachinesInput.length ∧
     baseMigrator.canAvoidDowntime = true) ∧
    ((Migrate okEnv (some 8) baseMigrator).err = some .aborted ∧
     (Migrate okEnv (some 8) baseMigrator).rolledBack = true ∧
     (∀ j, j < baseMigrator.newMachinesInput.length →
       Ev.launch j ∈ (Migrate okEnv (some 8) baseMigrator).trace) ∧
     (Migrate okEnv (some 8) baseMigrator).trace.filter Ev.isDestroy =
       (machsFrom okMachs 0 baseMigrator.newMachinesInput.length).map
         (fun mach => Ev.destroy mach.id) ∧
     (Migrate okEnv (some 8) baseMigrator).m.recovery.appLocked = false ∧
     Ev.resumeApp ∈ (Migrate okEnv (some 8) baseMigrator).trace) :=
  ⟨⟨by decide, by decide, rfl⟩,
   c8_abort_between_create_and_leases okEnv baseMigrator okMachs "lock1" ("rel1", 7) 8
     rfl rfl rfl rfl rfl (fun _ _ => rfl) (fun _ _ => rfl) rfl
     (by decide) (by decide)⟩

/-- **C10** (witness): the action "restart" is rejected with no wait call; for
"start" and "stop" the states waited on in a concrete run are as claimed. -/
theorem c10_action_switch_witness :
    ("restart" ≠ "start" ∧ "restart" ≠ "stop") ∧
    (MachineWait.WaitForStartOrStop flakyWaits "restart" 5 =
       ([], .error "action must be either start or stop") ∧
     (∀ s ∈ (MachineWait.WaitForStartOrStop flakyWaits "start" 5).1, s = "started") ∧
     (∀ s ∈ (MachineWait.WaitForStartOrStop flakyWaits "stop" 5).1, s = "stopped")) :=
  ⟨⟨by decide, by decide⟩,
   c10_action_switch.1 flakyWaits "restart" 5 (by decide) (by decide),
   c10_action_switch.2.1 flakyWaits 5,
   c10_action_switch.2.2 flakyWaits 5⟩

end MigrateToV2
